import Mathlib

/-!
Verification development for the resilient Jenkins API client layer
(`internal/jenkins/client.go` and `internal/jenkins/models.go`).

The Go code is shallowly embedded: pure helpers become Lean functions; the
network is modelled by an explicit script of responses (`NetState.resps`)
consumed one logical request at a time, while every issued request and every
sleep is recorded in an event trace (`NetState.trace`).  JSON bodies are
modelled by a small `Json` value type together with explicit decoding
functions that mirror `encoding/json`'s struct-unmarshalling semantics
(absent field / `null` leaves the Go zero value; a type mismatch is a decode
error).  Go slices whose nil-ness is observable are modelled as
`Option (List α)` (`none` = nil slice, `some []` = empty non-nil slice).
Machine integers are modelled by `Int`/`Nat`; no arithmetic in this layer
can realistically overflow (queue ids, build numbers, durations).
-/

/-- JSON values, as produced by `encoding/json` parsing.  Object fields are
an association list; the scripted inputs are assumed duplicate-free, matching
what a JSON parser produces. -/
inductive Json where
  | null : Json
  | bool (b : Bool) : Json
  | num (n : Int) : Json
  | str (s : String) : Json
  | arr (xs : List Json) : Json
  | obj (fields : List (String × Json)) : Json

/-- Field lookup in a decoded JSON object (first binding wins). -/
def lookupPairs : List (String × Json) → String → Option Json
  | [], _ => none
  | (k, v) :: rest, key => if k = key then some v else lookupPairs rest key

/-- `j["name"]` on an object; `none` for absent field or non-object. -/
def Json.lookup : Json → String → Option Json
  | .obj fs, key => lookupPairs fs key
  | _, _ => none

/-- Outcome of a Go call: a value, an `error` return, or a runtime panic. -/
inductive Outcome (α : Type) where
  | ok (a : α) : Outcome α
  | err (e : String) : Outcome α
  | panic (msg : String) : Outcome α
deriving DecidableEq, Repr

/-- HTTP method (only the two used by the client). -/
inductive Method where
  | get : Method
  | post : Method
deriving DecidableEq, Repr

/-- The authentication scheme attached to a request by `addAuthentication`:
either HTTP basic credentials or nothing. -/
inductive AuthScheme where
  | basic (user pass : String) : AuthScheme
  | noAuth : AuthScheme
deriving DecidableEq, Repr

/-- An outgoing HTTP request as observed on the wire: method, full URL,
attached credentials and headers. -/
structure Request where
  method : Method
  path : String
  auth : AuthScheme
  headers : List (String × String)
deriving DecidableEq, Repr

/-- An HTTP response.  `location` models `Header.Get("Location")` (empty
string = header absent).  `body` is the raw body text; `bodyJson` models what
`encoding/json.Unmarshal` would parse the body into (`none` = body is not
valid JSON). -/
structure Response where
  status : Nat
  location : String
  body : String
  bodyJson : Option Json

/-- Result of one transport-level round trip: a transport error or a
response. -/
inductive NetResult where
  | err (msg : String) : NetResult
  | resp (r : Response) : NetResult

/-!  ## Transport wrapper with retry/backoff (`retryTransport.RoundTrip`)  -/

/-- The retry transport configuration (`retryTransport` struct).
`backoff` is in nanoseconds (`time.Duration`). -/
structure RetryTransport where
  maxRetries : Nat
  backoff : Nat

/-- Did this attempt fail in the sense of the retry loop (transport error, or
server-error status class ≥ 500)? -/
def attemptFailed : NetResult → Bool
  | .err _ => true
  | .resp r => 500 ≤ r.status

/-- The `lastErr` value the Go loop stores for a failed attempt. -/
def attemptErrMsg : NetResult → String
  | .err e => e
  | .resp r => "server error: status code " ++ toString r.status

/-- The retry loop of `retryTransport.RoundTrip`, for GET requests.
`attempts i` is the transport outcome of attempt `i`; the loop runs
`attempt = 0 .. maxRetries` (`remaining` is the loop fuel
`maxRetries + 1 - attempt`).  Returns the result together with the list of
sleep durations performed, in order.  The Go delay
`time.Duration(float64(backoff) * math.Pow(2, attempt))` is modelled exactly
as `backoff * 2 ^ attempt` (exact for all realistic magnitudes, where the
float64 computation is lossless). -/
def retryLoop (attempts : Nat → NetResult) (backoff maxRetries : Nat) :
    Nat → Nat → String → Except String Response × List Nat
  | _, 0, lastErr => (.error ("max retries exceeded: " ++ lastErr), [])
  | attempt, remaining + 1, _ =>
    match attempts attempt with
    | .resp r =>
      if r.status < 500 then (.ok r, [])
      else
        let le := "server error: status code " ++ toString r.status
        if attempt < maxRetries then
          let rec' := retryLoop attempts backoff maxRetries (attempt + 1) remaining le
          (rec'.1, backoff * 2 ^ attempt :: rec'.2)
        else retryLoop attempts backoff maxRetries (attempt + 1) remaining le
    | .err e =>
      if attempt < maxRetries then
        let rec' := retryLoop attempts backoff maxRetries (attempt + 1) remaining e
        (rec'.1, backoff * 2 ^ attempt :: rec'.2)
      else retryLoop attempts backoff maxRetries (attempt + 1) remaining e

/-- `retryTransport.RoundTrip`: non-GET requests are passed through exactly
once (no retries, no sleeps); GET requests run the retry loop. -/
def RetryTransport.roundTrip (rt : RetryTransport) (method : Method)
    (attempts : Nat → NetResult) : Except String Response × List Nat :=
  if method = .get then
    retryLoop attempts rt.backoff rt.maxRetries 0 (rt.maxRetries + 1) ""
  else
    match attempts 0 with
    | .err e => (.error e, [])
    | .resp r => (.ok r, [])

/-!  ## Client-level network model

At the client layer each logical request (one `httpClient.Do`) consumes one
scripted `NetResult`; the retry behaviour inside a logical GET is fully
characterised separately by the transport-layer theorems, and a scripted
`NetResult` stands for the post-retry outcome of the round trip. -/

/-- An observable event of a client operation: a request put on the wire, or
a sleep (duration in nanoseconds). -/
inductive Event where
  | req (r : Request) : Event
  | sleep (ns : Nat) : Event

/-- The network state threaded through client operations: the not yet
consumed scripted responses, and the trace of events so far. -/
structure NetState where
  resps : List NetResult
  trace : List Event

/-- `httpClient.Do`: record the request, consume the next scripted outcome.
An exhausted script behaves as a transport failure. -/
def httpDo (req : Request) (s : NetState) : Outcome Response × NetState :=
  match s.resps with
  | [] => (.err "network unreachable", { resps := [], trace := s.trace ++ [.req req] })
  | nr :: rest =>
    let s' : NetState := { resps := rest, trace := s.trace ++ [.req req] }
    match nr with
    | .err e => (.err e, s')
    | .resp r => (.ok r, s')

/-- The Jenkins client (`Client` struct); `backoff` in nanoseconds. -/
structure Client where
  baseURL : String
  username : String
  password : String
  apiToken : String
  maxRetries : Nat
  backoff : Nat
deriving DecidableEq, Repr

/-- `Client.addAuthentication`: API token (as basic-auth password) takes
precedence; else username+password basic auth; else no credentials. -/
def Client.addAuthentication (c : Client) : AuthScheme :=
  if c.apiToken ≠ "" then .basic c.username c.apiToken
  else if c.username ≠ "" ∧ c.password ≠ "" then .basic c.username c.password
  else .noAuth

/-- Decoding `{"crumb": ..., "crumbRequestField": ...}` in `getCrumb`
(struct unmarshal: absent/`null` string field is `""`; a body that is not a
JSON object/null, or a non-string field, is an unmarshal error). -/
def decodeStringField : Option Json → Except String String
  | none => .ok ""
  | some .null => .ok ""
  | some (.str s) => .ok s
  | some _ => .error "json: cannot unmarshal value into string field"

/-- Unmarshal of the crumb response body into
`struct { Crumb, CrumbRequestField string }`, returning
`(crumbRequestField, crumb)` as `getCrumb` does. -/
def decodeCrumbData : Option Json → Except String (String × String)
  | none => .error "failed to parse crumb response"
  | some .null => .ok ("", "")
  | some (.obj fs) => do
    let crumb ← decodeStringField (lookupPairs fs "crumb")
    let field ← decodeStringField (lookupPairs fs "crumbRequestField")
    pure (field, crumb)
  | some _ => .error "failed to parse crumb response"

/-- The crumb request issued by `getCrumb`. -/
def crumbRequest (c : Client) : Request :=
  { method := .get
    path := c.baseURL ++ "/crumbIssuer/api/json"
    auth := c.addAuthentication
    headers := [("Accept", "application/json")] }

/-- `Client.getCrumb`: GET the crumb issuer endpoint; 404 means no CSRF
protection is configured (no token, no error); any other non-200 status or a
malformed body is an error. -/
def Client.getCrumb (c : Client) (s : NetState) :
    Outcome (String × String) × NetState :=
  match httpDo (crumbRequest c) s with
  | (.err e, s') => (.err ("crumb request failed: " ++ e), s')
  | (.panic m, s') => (.panic m, s')
  | (.ok resp, s') =>
    if resp.status = 404 then (.ok ("", ""), s')
    else if resp.status ≠ 200 then
      (.err ("unexpected status code " ++ toString resp.status ++ " when fetching crumb"), s')
    else
      match decodeCrumbData resp.bodyJson with
      | .error e => (.err e, s')
      | .ok fc => (.ok fc, s')

/-- `Client.doRequest`: build the request (auth + Accept header), for POST
first fetch the CSRF crumb — a crumb failure is swallowed and the request
proceeds without a crumb header; a fetched non-empty crumb is attached as a
header named by the server. -/
def Client.doRequest (c : Client) (method : Method) (path : String)
    (s : NetState) : Outcome Response × NetState :=
  let crumbStep : List (String × String) × NetState :=
    if method = .post then
      match c.getCrumb s with
      | (.ok (field, crumb), s') =>
        (if crumb ≠ "" then [(field, crumb)] else [], s')
      | (.err _, s') => ([], s')
      | (.panic _, s') => ([], s')
    else ([], s)
  let req : Request :=
    { method := method
      path := c.baseURL ++ path
      auth := c.addAuthentication
      headers := [("Accept", "application/json")] ++ crumbStep.1 }
  match httpDo req crumbStep.2 with
  | (.err e, s2) => (.err ("request failed: " ++ e), s2)
  | (.panic m, s2) => (.panic m, s2)
  | (.ok r, s2) => (.ok r, s2)

/-!  ## Domain model (`models.go`) and response decoders

A Go slice whose nil-ness is observable is `Option (List α)`; a nil pointer
is `Option`. -/

/-- `Job` (basic job information). -/
structure Job where
  name : String
  url : String
  description : String
  buildable : Bool
  inQueue : Bool
  color : String
deriving DecidableEq, Repr

/-- `BuildReference` ((number, URL) pair). -/
structure BuildReference where
  number : Int
  url : String
deriving DecidableEq, Repr

/-- `JobParameter` (`DefaultValue` is `interface{}`: an arbitrary decoded
JSON value, `none` = nil). -/
structure JobParameter where
  name : String
  type : String
  defaultValue : Option Json
  description : String

/-- `JobDetails`. -/
structure JobDetails where
  job : Job
  lastBuild : Option BuildReference
  lastSuccessfulBuild : Option BuildReference
  lastFailedBuild : Option BuildReference
  parameters : Option (List JobParameter)
  disabled : Bool

/-- `Build`. -/
structure Build where
  number : Int
  url : String
  result : String
  building : Bool
  duration : Int
  timestamp : Int
  executor : String
  estimatedDuration : Int
deriving DecidableEq, Repr

/-- `QueueItem`. -/
structure QueueItem where
  id : Int
  jobName : String
  why : String
  blocked : Bool
  buildable : Bool
  stuck : Bool
  inQueueSince : Int
  parameters : Option (List (String × String))
deriving DecidableEq, Repr

/-- The `[]` of a possibly-nil Go slice, as seen by `range`. -/
def sliceToList {α : Type} : Option (List α) → List α
  | none => []
  | some l => l

/-- Struct-unmarshal of a `bool` field: absent/`null` keeps the zero value
`false`; non-bool is an unmarshal error. -/
def decodeBoolField : Option Json → Except String Bool
  | none => .ok false
  | some .null => .ok false
  | some (.bool b) => .ok b
  | some _ => .error "json: cannot unmarshal value into bool field"

/-- Struct-unmarshal of an integer field: absent/`null` keeps `0`. -/
def decodeIntField : Option Json → Except String Int
  | none => .ok 0
  | some .null => .ok 0
  | some (.num n) => .ok n
  | some _ => .error "json: cannot unmarshal value into int field"

/-- Unmarshal a JSON value into the `Job` struct. -/
def decodeJob (j : Json) : Except String Job :=
  match j with
  | .null => .ok ⟨"", "", "", false, false, ""⟩
  | .obj fs => do
    let name ← decodeStringField (lookupPairs fs "name")
    let url ← decodeStringField (lookupPairs fs "url")
    let description ← decodeStringField (lookupPairs fs "description")
    let buildable ← decodeBoolField (lookupPairs fs "buildable")
    let inQueue ← decodeBoolField (lookupPairs fs "inQueue")
    let color ← decodeStringField (lookupPairs fs "color")
    pure ⟨name, url, description, buildable, inQueue, color⟩
  | _ => .error "json: cannot unmarshal value into Job"

/-- Unmarshal a slice field (`[]α`): absent/`null` is the nil slice. -/
def decodeSliceField {α : Type} (dec : Json → Except String α) :
    Option Json → Except String (Option (List α))
  | none => .ok none
  | some .null => .ok none
  | some (.arr xs) => (xs.mapM dec).map some
  | some _ => .error "json: cannot unmarshal value into slice field"

/-- Unmarshal a pointer-to-struct field (`*T`): absent/`null` is nil. -/
def decodePtrField {α : Type} (dec : Json → Except String α) :
    Option Json → Except String (Option α)
  | none => .ok none
  | some .null => .ok none
  | some j => (dec j).map some

/-- Unmarshal into `BuildReference`. -/
def decodeBuildReference (j : Json) : Except String BuildReference :=
  match j with
  | .null => .ok ⟨0, ""⟩
  | .obj fs => do
    let number ← decodeIntField (lookupPairs fs "number")
    let url ← decodeStringField (lookupPairs fs "url")
    pure ⟨number, url⟩
  | _ => .error "json: cannot unmarshal value into BuildReference"

/-- Unmarshal into `Build`. -/
def decodeBuild (j : Json) : Except String Build :=
  match j with
  | .null => .ok ⟨0, "", "", false, 0, 0, "", 0⟩
  | .obj fs => do
    let number ← decodeIntField (lookupPairs fs "number")
    let url ← decodeStringField (lookupPairs fs "url")
    let result ← decodeStringField (lookupPairs fs "result")
    let building ← decodeBoolField (lookupPairs fs "building")
    let duration ← decodeIntField (lookupPairs fs "duration")
    let timestamp ← decodeIntField (lookupPairs fs "timestamp")
    let executor ← decodeStringField (lookupPairs fs "executor")
    let estimatedDuration ← decodeIntField (lookupPairs fs "estimatedDuration")
    pure ⟨number, url, result, building, duration, timestamp, executor, estimatedDuration⟩
  | _ => .error "json: cannot unmarshal value into Build"

/-- Unmarshal of the `ListJobs` response body into
`struct { Jobs []Job }`, keeping the nil/empty distinction of `Jobs`. -/
def decodeListJobsResult : Option Json → Except String (Option (List Job))
  | none => .error "failed to parse response"
  | some .null => .ok none
  | some (.obj fs) => decodeSliceField decodeJob (lookupPairs fs "jobs")
  | some _ => .error "failed to parse response"

/-- The nested `defaultParameterValue { value interface{} }` of a parameter
definition; yields the `interface{}` value (nil for absent/null). -/
def decodeDefaultValue : Option Json → Except String (Option Json)
  | none => .ok none
  | some .null => .ok none
  | some (.obj fs) =>
    match lookupPairs fs "value" with
    | none => .ok none
    | some .null => .ok none
    | some v => .ok (some v)
  | some _ => .error "json: cannot unmarshal value into defaultParameterValue"

/-- One entry of `parameterDefinitions` in `GetJob`'s raw result. -/
def decodeRawParamDef (j : Json) : Except String JobParameter :=
  match j with
  | .null => .ok ⟨"", "", none, ""⟩
  | .obj fs => do
    let name ← decodeStringField (lookupPairs fs "name")
    let type ← decodeStringField (lookupPairs fs "type")
    let description ← decodeStringField (lookupPairs fs "description")
    let dv ← decodeDefaultValue (lookupPairs fs "defaultParameterValue")
    pure ⟨name, type, dv, description⟩
  | _ => .error "json: cannot unmarshal value into parameter definition"

/-- One entry of the `property` wrapper list: its (possibly nil) list of
parameter definitions. -/
def decodeRawProperty (j : Json) : Except String (Option (List JobParameter)) :=
  match j with
  | .null => .ok none
  | .obj fs => decodeSliceField decodeRawParamDef (lookupPairs fs "parameterDefinitions")
  | _ => .error "json: cannot unmarshal value into property"

/-- Unmarshal of `GetJob`'s raw response and construction of `JobDetails`:
the nested `property[*].parameterDefinitions[*]` entries are flattened into
`parameters`, which starts as the empty non-nil slice `[]JobParameter{}`. -/
def decodeJobDetails : Option Json → Except String JobDetails
  | none => .error "failed to parse response"
  | some .null =>
    .ok ⟨⟨"", "", "", false, false, ""⟩, none, none, none, some [], false⟩
  | some (.obj fs) => do
    let name ← decodeStringField (lookupPairs fs "name")
    let url ← decodeStringField (lookupPairs fs "url")
    let description ← decodeStringField (lookupPairs fs "description")
    let buildable ← decodeBoolField (lookupPairs fs "buildable")
    let inQueue ← decodeBoolField (lookupPairs fs "inQueue")
    let color ← decodeStringField (lookupPairs fs "color")
    let disabled ← decodeBoolField (lookupPairs fs "disabled")
    let lastBuild ← decodePtrField decodeBuildReference (lookupPairs fs "lastBuild")
    let lastSuccessfulBuild ← decodePtrField decodeBuildReference (lookupPairs fs "lastSuccessfulBuild")
    let lastFailedBuild ← decodePtrField decodeBuildReference (lookupPairs fs "lastFailedBuild")
    let property ← decodeSliceField decodeRawProperty (lookupPairs fs "property")
    let params := (sliceToList property).foldl (fun acc pd => acc ++ sliceToList pd) []
    pure ⟨⟨name, url, description, buildable, inQueue, color⟩,
      lastBuild, lastSuccessfulBuild, lastFailedBuild, some params, disabled⟩
  | some _ => .error "failed to parse response"

/-!  ## String-scanning helpers (`bytes.Index`, `strings.Contains`, the two
regular expressions, `fmt.Sscanf("%d")`), modelled over `List Char`.  -/

/-- `bytes.Index` / `strings.Index`: index of the first occurrence of `pat`
in `l`, scanning left to right. -/
def indexOfSub (pat : List Char) : List Char → Option Nat
  | [] => if pat.isEmpty then some 0 else none
  | c :: rest =>
    if pat.isPrefixOf (c :: rest) then some 0
    else (indexOfSub pat rest).map (· + 1)

/-- `strings.Contains` over char lists. -/
def containsSub (pat l : List Char) : Bool :=
  (indexOfSub pat l).isSome

/-- `bytes.TrimSuffix(l, "/")`: remove one trailing `'/'` if present. -/
def trimSuffixSlash (l : List Char) : List Char :=
  match l.reverse with
  | '/' :: r => r.reverse
  | _ => l

/-- Accumulate the value of a decimal digit string
(`fold: acc * 10 + digit`). -/
def digitsToNat (l : List Char) : Nat :=
  l.foldl (fun acc c => acc * 10 + (c.toNat - 48)) 0

/-- A maximal run of leading decimal digits, its value; `none` when the
input has no leading digit. -/
def parseDigits (l : List Char) : Option Nat :=
  let ds := l.takeWhile Char.isDigit
  if ds.isEmpty then none else some (digitsToNat ds)

/-- `fmt.Sscanf(s, "%d", &n)`: skip leading blanks, optional sign, then a
non-empty digit run; input remaining after the number is ignored.  (Only the
space blank is modelled; no input in this layer contains other whitespace.) -/
def parseDecimal (l : List Char) : Option Int :=
  match l.dropWhile (fun c => c = ' ') with
  | [] => none
  | c :: rest =>
    if c = '-' then (parseDigits rest).map (fun n => -(n : Int))
    else if c = '+' then (parseDigits rest).map (fun n => ((n : Nat) : Int))
    else (parseDigits (c :: rest)).map (fun n => ((n : Nat) : Int))

/-- The literal `"/queue/item/"` as a char list. -/
def queueItemPat : List Char := "/queue/item/".toList

/-- `parseQueueIDFromLocation`: find the first `"/queue/item/"`, take what
follows, trim one trailing slash, scan a decimal number. -/
def parseQueueIDFromLocation (location : String) : Except String Int :=
  match indexOfSub queueItemPat location.toList with
  | none => .error ("invalid location format: " ++ location)
  | some idx =>
    let idPart := trimSuffixSlash (location.toList.drop (idx + 12))
    match parseDecimal idPart with
    | none => .error ("failed to parse queue ID from " ++ String.mk idPart)
    | some n => .ok n

/-- A match of the regular expression `/queue/item/(\d+)/` anchored at the
start of `l`: the full matched text, when `l` starts with the pattern, at
least one digit, and a closing slash. -/
def queueMatchAt (l : List Char) : Option (List Char) :=
  if queueItemPat.isPrefixOf l then
    let rest := l.drop 12
    let ds := rest.takeWhile Char.isDigit
    if ds.isEmpty then none
    else
      match rest.drop ds.length with
      | '/' :: _ => some (queueItemPat ++ ds ++ ['/'])
      | _ => none
  else none

/-- `regexp.FindStringSubmatch` for `/queue/item/(\d+)/`: the leftmost
match's full text (`matches[0]`). -/
def findQueueItemPath : List Char → Option (List Char)
  | [] => none
  | c :: rest =>
    match queueMatchAt (c :: rest) with
    | some m => some m
    | none => findQueueItemPath rest

/-- `fmt.Sprintf("%v", v)` on a decoded `interface{}` JSON value.  Composite
values (never produced by the code paths under verification) are abstracted
to a fixed placeholder. -/
def goSprintV : Json → String
  | .str s => s
  | .num n => toString n
  | .bool b => toString b
  | .null => "<nil>"
  | .arr _ => "<composite>"
  | .obj _ => "<composite>"

/-- Unmarshal of an arbitrary body into `map[string]interface{}`: the field
list for a JSON object, the nil map for JSON `null`, an error otherwise. -/
def unmarshalMapAny : Option Json → Except String (List (String × Json))
  | none => .error "invalid json"
  | some (.obj fs) => .ok fs
  | some .null => .ok []
  | some _ => .error "json: cannot unmarshal value into map"

/-- `generateQueueLocationFromResponse`: fallback extraction of a queue
location when the `Location` header is missing.  Scans the body for
`/queue/item/(\d+)/`; failing that, parses the body as JSON and follows
`_links.self.href` — the two inner lookups are **unchecked Go type
assertions** (`x.(map[string]interface{})`), so a JSON object body without
an object-valued `_links`/`self` chain makes the Go code panic. -/
def generateQueueLocationFromResponse (resp : Response) : Outcome String :=
  match findQueueItemPath resp.body.toList with
  | some m => .ok (String.mk m)
  | none =>
    match unmarshalMapAny resp.bodyJson with
    | .error _ => .ok ""
    | .ok fs =>
      match lookupPairs fs "_links" with
      | some (.obj lfs) =>
        match lookupPairs lfs "self" with
        | some (.obj sfs) =>
          match lookupPairs sfs "href" with
          | some v => .ok (goSprintV v)
          | none => .ok ""
        | _ => .panic "interface conversion: interface {} is nil, not map[string]interface {}"
      | _ => .panic "interface conversion: interface {} is nil, not map[string]interface {}"

/-!  ## Client operations  -/

/-- `Client.ListJobs`. -/
def Client.ListJobs (c : Client) (folder : String) (s : NetState) :
    Outcome (Option (List Job)) × NetState :=
  match c.doRequest .get
      ((if folder ≠ "" then "/job/" ++ folder ++ "/api/json" else "/api/json") ++
        "?tree=jobs[name,url,description,buildable,inQueue,color]") s with
  | (.err e, s') => (.err ("failed to list jobs: " ++ e), s')
  | (.panic m, s') => (.panic m, s')
  | (.ok resp, s') =>
    if resp.status = 404 then (.err ("folder not found: " ++ folder), s')
    else if resp.status = 403 then
      (.err "permission denied: insufficient permissions to list jobs", s')
    else if resp.status ≠ 200 then
      (.err ("unexpected status code " ++ toString resp.status ++ ": " ++ resp.body), s')
    else
      match decodeListJobsResult resp.bodyJson with
      | .error e => (.err e, s')
      | .ok none => (.ok (some []), s')
      | .ok (some jobs) => (.ok (some jobs), s')

/-- The field-projection query of `GetJob`. -/
def getJobTree : String :=
  "?tree=name,url,description,buildable,inQueue,color,disabled," ++
  "lastBuild[number,url]," ++
  "lastSuccessfulBuild[number,url]," ++
  "lastFailedBuild[number,url]," ++
  "property[parameterDefinitions[name,type,defaultParameterValue[value],description]]"

/-- `Client.GetJob`. -/
def Client.GetJob (c : Client) (jobName : String) (s : NetState) :
    Outcome JobDetails × NetState :=
  if jobName = "" then (.err "job name cannot be empty", s)
  else
    match c.doRequest .get ("/job/" ++ jobName ++ "/api/json" ++ getJobTree) s with
    | (.err e, s') => (.err ("failed to get job details: " ++ e), s')
    | (.panic m, s') => (.panic m, s')
    | (.ok resp, s') =>
      if resp.status = 404 then (.err ("job not found: " ++ jobName), s')
      else if resp.status = 403 then
        (.err ("permission denied: insufficient permissions to access job " ++ jobName), s')
      else if resp.status ≠ 200 then
        (.err ("unexpected status code " ++ toString resp.status ++ ": " ++ resp.body), s')
      else
        match decodeJobDetails resp.bodyJson with
        | .error e => (.err e, s')
        | .ok jd => (.ok jd, s')

/-- `Client.validateParameters`: every supplied parameter name must be
defined on the job; the first unknown name (in traversal order) is the
error.  The Go `map[string]string` argument is modelled as an association
list (Go map iteration order is unspecified; the list order stands for one
such order). -/
def Client.validateParameters (jobDetails : JobDetails)
    (params : List (String × String)) : Except String Unit :=
  let validNames := (sliceToList jobDetails.parameters).map (·.name)
  match params.find? (fun p => !(validNames.contains p.1)) with
  | some p => .error ("invalid parameter: " ++ p.1 ++ " is not defined for this job")
  | none => .ok ()

/-- Insertion into a key-sorted association list. -/
def insertByKey (p : String × String) :
    List (String × String) → List (String × String)
  | [] => [p]
  | q :: rest => if q.1 < p.1 then q :: insertByKey p rest else p :: q :: rest

/-- `url.Values.Encode()`: entries sorted by key, joined as `k=v&k=v`.
Percent-escaping is abstracted as the identity (no claim inspects an encoded
query). -/
def encodeQuery (params : List (String × String)) : String :=
  let sorted := params.foldr insertByKey []
  String.intercalate "&" (sorted.map (fun p => p.1 ++ "=" ++ p.2))

/-- The diagnostic error `TriggerBuild` returns when no technique yields a
queue location. -/
def noLocationDiagnostic : String :=
  "jenkins did not return a queue Location header. " ++
  "This usually happens when:\n" ++
  " - Authentication failed (MFA enforced)\n" ++
  " - API token is invalid\n" ++
  " - Reverse proxy removed Location header\n" ++
  " - Build was not triggered at all\n\n" ++
  "Tip: Check for MFA redirects or test with curl"

/-- `Client.TriggerBuild`: fetch job details, validate supplied parameters
against the schema, POST to the parameterized or simple endpoint, then
correlate the queue admission from the `Location` header with body-scanning
fallback. -/
def Client.TriggerBuild (c : Client) (jobName : String)
    (params : List (String × String)) (s : NetState) :
    Outcome QueueItem × NetState :=
  if jobName = "" then (.err "job name cannot be empty", s)
  else
    match c.GetJob jobName s with
    | (.err e, s1) => (.err ("failed to get job details for validation: " ++ e), s1)
    | (.panic m, s1) => (.panic m, s1)
    | (.ok jobDetails, s1) =>
      match (if 0 < params.length then Client.validateParameters jobDetails params
            else .ok ()) with
      | .error e => (.err ("parameter validation failed: " ++ e), s1)
      | .ok _ =>
        match c.doRequest .post
            (if 0 < params.length then
              "/job/" ++ jobName ++ "/buildWithParameters?" ++ encodeQuery params
            else "/job/" ++ jobName ++ "/build") s1 with
        | (.err e, s2) => (.err ("failed to trigger build: " ++ e), s2)
        | (.panic m, s2) => (.panic m, s2)
        | (.ok resp, s2) =>
          if resp.status = 404 then (.err ("job not found: " ++ jobName), s2)
          else if resp.status = 403 then
            (.err ("permission denied: insufficient permissions to trigger build for job "
              ++ jobName), s2)
          else
            let locStep : Outcome String :=
              if 300 ≤ resp.status ∧ resp.status < 400 then
                if resp.location = "" then
                  .err ("redirect received but no Location header present (status: "
                    ++ toString resp.status ++ ")")
                else .ok resp.location
              else if resp.status = 201 ∨ resp.status = 200 then
                if resp.location = "" then
                  match generateQueueLocationFromResponse resp with
                  | .panic m => .panic m
                  | .err e => .err e
                  | .ok "" => .err noLocationDiagnostic
                  | .ok loc => .ok loc
                else .ok resp.location
              else .err ("unexpected status code " ++ toString resp.status ++ ": " ++ resp.body)
            match locStep with
            | .panic m => (.panic m, s2)
            | .err e => (.err e, s2)
            | .ok location =>
              match parseQueueIDFromLocation location with
              | .error e => (.err ("failed to parse queue ID from location: " ++ e), s2)
              | .ok queueID =>
                (.ok { id := queueID, jobName := jobName, why := "", blocked := false,
                       buildable := false, stuck := false, inQueueSince := 0,
                       parameters := if 0 < params.length then some params else none }, s2)

/-- `Client.GetBuild`. -/
def Client.GetBuild (c : Client) (jobName : String) (buildNumber : Int)
    (s : NetState) : Outcome Build × NetState :=
  if jobName = "" then (.err "job name cannot be empty", s)
  else if buildNumber ≤ 0 then (.err "build number must be positive", s)
  else
    match c.doRequest .get ("/job/" ++ jobName ++ "/" ++ toString buildNumber ++
      "/api/json?tree=number,url,result,building,duration,timestamp,executor,estimatedDuration") s with
    | (.err e, s') => (.err ("failed to get build: " ++ e), s')
    | (.panic m, s') => (.panic m, s')
    | (.ok resp, s') =>
      if resp.status = 404 then
        (.err ("build not found: job=" ++ jobName ++ ", build=" ++ toString buildNumber), s')
      else if resp.status = 403 then
        (.err ("permission denied: insufficient permissions to access build for job "
          ++ jobName), s')
      else if resp.status ≠ 200 then
        (.err ("unexpected status code " ++ toString resp.status ++ ": " ++ resp.body), s')
      else
        match resp.bodyJson with
        | none => (.err "failed to parse response", s')
        | some j =>
          match decodeBuild j with
          | .error e => (.err e, s')
          | .ok b => (.ok b, s')

/-- The 500 ms settle delay of `StopBuild` (`time.Sleep(500 * time.Millisecond)`),
as a trace event. -/
def settleSleep (s : NetState) : NetState :=
  { s with trace := s.trace ++ [.sleep 500000000] }

/-- `Client.StopBuild`: precondition check (the build must be running), stop
mutation, settle delay, then poll-verify that the re-fetched build is no
longer building and ended `ABORTED`. -/
def Client.StopBuild (c : Client) (jobName : String) (buildNumber : Int)
    (s : NetState) : Outcome Unit × NetState :=
  if jobName = "" then (.err "job name cannot be empty", s)
  else if buildNumber ≤ 0 then (.err "build number must be positive", s)
  else
    match c.GetBuild jobName buildNumber s with
    | (.err e, s1) => (.err ("failed to get build status: " ++ e), s1)
    | (.panic m, s1) => (.panic m, s1)
    | (.ok build, s1) =>
      if ¬ build.building then
        (.err ("build is not running: job=" ++ jobName ++ ", build=" ++
          toString buildNumber ++ ", status=" ++ build.result), s1)
      else
        match c.doRequest .post
            ("/job/" ++ jobName ++ "/" ++ toString buildNumber ++ "/stop") s1 with
        | (.err e, s2) => (.err ("failed to stop build: " ++ e), s2)
        | (.panic m, s2) => (.panic m, s2)
        | (.ok resp, s2) =>
          if resp.status = 404 then
            (.err ("build not found: job=" ++ jobName ++ ", build=" ++
              toString buildNumber), s2)
          else if resp.status = 403 then
            (.err ("permission denied: insufficient permissions to stop build for job "
              ++ jobName), s2)
          else if resp.status ≠ 200 ∧ resp.status ≠ 302 ∧ resp.status ≠ 204 then
            (.err ("unexpected status code " ++ toString resp.status ++ ": " ++ resp.body), s2)
          else
            match c.GetBuild jobName buildNumber (settleSleep s2) with
            | (.err e, s3) => (.err ("failed to verify build status after stop: " ++ e), s3)
            | (.panic m, s3) => (.panic m, s3)
            | (.ok updated, s3) =>
              if updated.building then
                (.err ("build is still running after stop request: job=" ++ jobName ++
                  ", build=" ++ toString buildNumber), s3)
              else if updated.result ≠ "ABORTED" then
                (.err ("build status is " ++ updated.result ++ ", expected ABORTED: job=" ++
                  jobName ++ ", build=" ++ toString buildNumber), s3)
              else (.ok (), s3)

/-- The inline-pipeline type marker. -/
def cpsFlowMarker : String := "org.jenkinsci.plugins.workflow.cps.CpsFlowDefinition"

/-- The SCM-backed pipeline type marker. -/
def cpsScmFlowMarker : String := "org.jenkinsci.plugins.workflow.cps.CpsScmFlowDefinition"

/-- The opening script delimiter as a char list. -/
def scOpen : List Char := "<script>".toList

/-- The closing script delimiter as a char list. -/
def scClose : List Char := "</script>".toList

/-- The segment of `l` before the first occurrence of `pat`, when `pat`
occurs in `l`. -/
def takeToSub (pat : List Char) : List Char → Option (List Char)
  | [] => if pat.isEmpty then some [] else none
  | c :: rest =>
    if pat.isPrefixOf (c :: rest) then some []
    else (takeToSub pat rest).map (c :: ·)

/-- The leftmost match of the regular expression
`<script>([\s\S]*?)</script>`: the capture group — the text between the
first `<script>` that is followed by a `</script>`, and the nearest such
`</script>`. -/
def extractScript : List Char → Option (List Char)
  | [] => none
  | c :: rest =>
    if scOpen.isPrefixOf (c :: rest) then
      match takeToSub scClose ((c :: rest).drop 8) with
      | some inner => some inner
      | none => extractScript rest
    else extractScript rest

/-- `Client.GetPipelineScript`: fetch `config.xml` and disambiguate inline
pipeline (script extraction), SCM-backed pipeline, and non-pipeline jobs by
marker scanning. -/
def Client.GetPipelineScript (c : Client) (job : String) (s : NetState) :
    Outcome String × NetState :=
  match c.doRequest .get ("/job/" ++ job ++ "/config.xml") s with
  | (.err e, s') => (.err ("failed to fetch config.xml: " ++ e), s')
  | (.panic m, s') => (.panic m, s')
  | (.ok resp, s') =>
    if resp.status = 404 then (.err ("job not found: " ++ job), s')
    else if resp.status ≠ 200 then
      (.err ("unexpected status " ++ toString resp.status ++ ": " ++ resp.body), s')
    else
      if containsSub cpsFlowMarker.toList resp.body.toList then
        match extractScript resp.body.toList with
        | some m => (.ok (String.mk m), s')
        | none => (.err "pipeline job found, but <script> block is empty or missing", s')
      else if containsSub cpsScmFlowMarker.toList resp.body.toList then
        (.err "pipeline is defined in SCM (Git). Jenkins does not store the Jenkinsfile inline", s')
      else
        (.err ("job '" ++ job ++ "' is not an inline pipeline job (no <script> block available)"), s')


/-- The request `doRequest` builds for a GET. -/
def getRequest (c : Client) (path : String) : Request :=
  { method := .get
    path := c.baseURL ++ path
    auth := c.addAuthentication
    headers := [("Accept", "application/json")] }

/-- The request `doRequest` builds for a POST, given the crumb headers
obtained from the handshake. -/
def postRequest (c : Client) (path : String) (extra : List (String × String)) : Request :=
  { method := .post
    path := c.baseURL ++ path
    auth := c.addAuthentication
    headers := [("Accept", "application/json")] ++ extra }

/-- `doRequest`'s wrapping of the transport outcome of the main request. -/
def httpDoWrap (req : Request) (s : NetState) : Outcome Response × NetState :=
  match httpDo req s with
  | (.err e, s2) => (.err ("request failed: " ++ e), s2)
  | (.panic m, s2) => (.panic m, s2)
  | (.ok r, s2) => (.ok r, s2)

/-- The crumb headers `doRequest` attaches to a POST: the fetched crumb when
the handshake succeeded with a non-empty token, nothing otherwise. -/
def crumbHeaders (c : Client) (s : NetState) : List (String × String) :=
  match (c.getCrumb s).1 with
  | .ok fc => if fc.2 ≠ "" then [(fc.1, fc.2)] else []
  | .err _ => []
  | .panic _ => []

/-- A decimal digit as a character. -/
def digitChar (d : Nat) : Char :=
  if d = 0 then '0' else if d = 1 then '1' else if d = 2 then '2' else if d = 3 then '3'
  else if d = 4 then '4' else if d = 5 then '5' else if d = 6 then '6' else if d = 7 then '7'
  else if d = 8 then '8' else '9'

/-- Big-endian decimal digits of `n` (fuel-based division recursion; any
fuel above the digit count is enough). -/
def natToDigits : Nat → Nat → List Char
  | 0, _ => []
  | fuel + 1, n =>
    if n < 10 then [digitChar n]
    else natToDigits fuel (n / 10) ++ [digitChar (n % 10)]

/-- The usual decimal representation of a natural number. -/
def decimalRepr (n : Nat) : String := String.mk (natToDigits (n + 1) n)

/-!  ## Lemmas about the retry loop  -/

/-- If the first `k` attempts starting at `attempt` fail and attempt
`attempt + k` succeeds within the retry budget, the loop returns that
response after sleeping `backoff * 2 ^ i` for each failed attempt `i`. -/
theorem retryLoop_success (attempts : Nat → NetResult) (backoff maxRetries : Nat) :
    ∀ (k attempt : Nat) (le : String) (r : Response),
      attempt + k ≤ maxRetries →
      (∀ i, i < k → attemptFailed (attempts (attempt + i)) = true) →
      attempts (attempt + k) = .resp r → r.status < 500 →
      retryLoop attempts backoff maxRetries attempt (maxRetries + 1 - attempt) le =
        (.ok r, (List.range k).map (fun i => backoff * 2 ^ (attempt + i))) := by
  intro k
  induction k with
  | zero =>
    intro attempt le r hle _hfail hresp hstatus
    have hrem : maxRetries + 1 - attempt = (maxRetries - attempt) + 1 := by omega
    rw [hrem, retryLoop]
    simp only [Nat.add_zero] at hresp
    rw [hresp]
    simp [hstatus]
  | succ k ih =>
    intro attempt le r hle hfail hresp hstatus
    have hrem : maxRetries + 1 - attempt = (maxRetries - attempt) + 1 := by omega
    have hlt : attempt < maxRetries := by omega
    have h0 : attemptFailed (attempts (attempt + 0)) = true := hfail 0 (Nat.succ_pos k)
    simp only [Nat.add_zero] at h0
    have hrem2 : maxRetries - attempt = maxRetries + 1 - (attempt + 1) := by omega
    have hfail' : ∀ i, i < k → attemptFailed (attempts (attempt + 1 + i)) = true := by
      intro i hi
      have := hfail (i + 1) (by omega)
      rw [show attempt + 1 + i = attempt + (i + 1) from by omega]
      exact this
    have hresp' : attempts (attempt + 1 + k) = .resp r := by
      rw [show attempt + 1 + k = attempt + (k + 1) from by omega]
      exact hresp
    have hmap : backoff * 2 ^ attempt ::
        (List.range k).map (fun i => backoff * 2 ^ (attempt + 1 + i)) =
        (List.range (k + 1)).map (fun i => backoff * 2 ^ (attempt + i)) := by
      rw [List.range_succ_eq_map, List.map_cons, List.map_map]
      simp only [Nat.add_zero]
      congr 1
      apply List.map_congr_left
      intro i _
      simp only [Function.comp_apply]
      congr 2
      omega
    rw [hrem, retryLoop]
    cases hat : attempts attempt with
    | err e =>
      simp only [if_pos hlt]
      rw [hrem2, ih (attempt + 1) e r (by omega) hfail' hresp' hstatus]
      simpa using hmap
    | resp r' =>
      have hge : ¬ r'.status < 500 := by
        rw [hat] at h0
        simp only [attemptFailed, decide_eq_true_eq] at h0
        omega
      simp only [if_neg hge, if_pos hlt]
      rw [hrem2, ih (attempt + 1) _ r (by omega) hfail' hresp' hstatus]
      simpa using hmap

/-- If every attempt from `attempt` through `maxRetries` fails, the loop
exhausts the budget, sleeps after every attempt but the last, and returns
the last attempt's error wrapped as retry exhaustion. -/
theorem retryLoop_exhaust (attempts : Nat → NetResult) (backoff maxRetries : Nat) :
    ∀ (d attempt : Nat) (le : String),
      attempt + d = maxRetries →
      (∀ i, attempt ≤ i → i ≤ maxRetries → attemptFailed (attempts i) = true) →
      retryLoop attempts backoff maxRetries attempt (maxRetries + 1 - attempt) le =
        (.error ("max retries exceeded: " ++ attemptErrMsg (attempts maxRetries)),
         (List.range d).map (fun i => backoff * 2 ^ (attempt + i))) := by
  intro d
  induction d with
  | zero =>
    intro attempt le hd hfail
    have hattempt : attempt = maxRetries := by omega
    rw [hattempt]
    have hrem : maxRetries + 1 - maxRetries = 1 := by omega
    rw [hrem, retryLoop]
    have hf := hfail maxRetries (by omega) (Nat.le_refl _)
    cases hat : attempts maxRetries with
    | err e =>
      simp only [if_neg (Nat.lt_irrefl maxRetries)]
      rw [retryLoop]
      simp [attemptErrMsg, hat]
    | resp r' =>
      have hge : ¬ r'.status < 500 := by
        rw [hat] at hf
        simp only [attemptFailed, decide_eq_true_eq] at hf
        omega
      simp only [if_neg hge, if_neg (Nat.lt_irrefl maxRetries)]
      rw [retryLoop]
      simp [attemptErrMsg, hat]
  | succ d ih =>
    intro attempt le hd hfail
    have hrem : maxRetries + 1 - attempt = (maxRetries - attempt) + 1 := by omega
    have hlt : attempt < maxRetries := by omega
    have hf := hfail attempt (Nat.le_refl _) (by omega)
    have hrem2 : maxRetries - attempt = maxRetries + 1 - (attempt + 1) := by omega
    have hfail' : ∀ i, attempt + 1 ≤ i → i ≤ maxRetries → attemptFailed (attempts i) = true :=
      fun i h1 h2 => hfail i (by omega) h2
    have hmap : backoff * 2 ^ attempt ::
        (List.range d).map (fun i => backoff * 2 ^ (attempt + 1 + i)) =
        (List.range (d + 1)).map (fun i => backoff * 2 ^ (attempt + i)) := by
      rw [List.range_succ_eq_map, List.map_cons, List.map_map]
      simp only [Nat.add_zero]
      congr 1
      apply List.map_congr_left
      intro i _
      simp only [Function.comp_apply]
      congr 2
      omega
    rw [hrem, retryLoop]
    cases hat : attempts attempt with
    | err e =>
      simp only [if_pos hlt]
      rw [hrem2, ih (attempt + 1) e (by omega) hfail']
      simpa using hmap
    | resp r' =>
      have hge : ¬ r'.status < 500 := by
        rw [hat] at hf
        simp only [attemptFailed, decide_eq_true_eq] at hf
        omega
      simp only [if_neg hge, if_pos hlt]
      rw [hrem2, ih (attempt + 1) _ (by omega) hfail']
      simpa using hmap

/-- C2: The transport wrapper retries only HTTP GET requests; every non-GET
request is passed through exactly once (its transport outcome returned
as-is, no sleeps).  For a GET, an attempt with status < 500 is returned
immediately; a failed attempt (transport failure or status ≥ 500) is
retried up to `maxRetries` additional times, sleeping `backoff * 2 ^ k`
after failed attempt `k` (so the waits are `backoff, backoff*2, backoff*4`
for `maxRetries = 3`); after the final attempt the last observed error is
returned wrapped as "max retries exceeded". -/
theorem claim_C2_retry_policy (rt : RetryTransport) (attempts : Nat → NetResult) :
    (∀ method, method ≠ .get →
      (∀ e, attempts 0 = .err e → rt.roundTrip method attempts = (.error e, [])) ∧
      (∀ r, attempts 0 = .resp r → rt.roundTrip method attempts = (.ok r, []))) ∧
    (∀ k r, k ≤ rt.maxRetries →
      (∀ i, i < k → attemptFailed (attempts i) = true) →
      attempts k = .resp r → r.status < 500 →
      rt.roundTrip .get attempts =
        (.ok r, (List.range k).map (fun i => rt.backoff * 2 ^ i))) ∧
    ((∀ i, i ≤ rt.maxRetries → attemptFailed (attempts i) = true) →
      rt.roundTrip .get attempts =
        (.error ("max retries exceeded: " ++ attemptErrMsg (attempts rt.maxRetries)),
         (List.range rt.maxRetries).map (fun i => rt.backoff * 2 ^ i))) := by
  refine ⟨?_, ?_, ?_⟩
  · intro method hm
    constructor
    · intro e he
      rw [RetryTransport.roundTrip, if_neg hm, he]
    · intro r hr
      rw [RetryTransport.roundTrip, if_neg hm, hr]
  · intro k r hk hfail hresp hstatus
    rw [RetryTransport.roundTrip, if_pos rfl]
    have h := retryLoop_success attempts rt.backoff rt.maxRetries k 0 "" r
      (by omega) (fun i hi => by simpa using hfail i hi) (by simpa using hresp) hstatus
    simpa using h
  · intro hfail
    rw [RetryTransport.roundTrip, if_pos rfl]
    have h := retryLoop_exhaust attempts rt.backoff rt.maxRetries rt.maxRetries 0 ""
      (by omega) (fun i _ hi => hfail i hi)
    simpa using h

/-- Witness for C2 at a concrete input: with `maxRetries = 3` and
`backoff = 1 s` (in nanoseconds), a persistent 503 on a GET produces the
waits 1s, 2s, 4s and a wrapped retry-exhaustion error, while the same
condition on a POST returns the 503 immediately with no sleeps. -/
theorem claim_C2_retry_policy_witness :
    RetryTransport.roundTrip ⟨3, 1000000000⟩ .get
        (fun _ => .resp ⟨503, "", "", none⟩) =
      (.error "max retries exceeded: server error: status code 503",
       [1000000000, 2000000000, 4000000000]) ∧
    RetryTransport.roundTrip ⟨3, 1000000000⟩ .post
        (fun _ => .resp ⟨503, "", "", none⟩) =
      (.ok ⟨503, "", "", none⟩, []) := by
  constructor
  · have h := (claim_C2_retry_policy ⟨3, 1000000000⟩
      (fun _ => .resp ⟨503, "", "", none⟩)).2.2 (fun i _ => by decide)
    rw [h]
    rfl
  · exact ((claim_C2_retry_policy ⟨3, 1000000000⟩
      (fun _ => .resp ⟨503, "", "", none⟩)).1 .post (by decide)).2
      ⟨503, "", "", none⟩ rfl

/-!  ## Structural lemmas about the client's request plumbing  -/


theorem httpDo_trace (req : Request) (s : NetState) :
    (httpDo req s).2.trace = s.trace ++ [.req req] := by
  rcases s with ⟨resps, trace⟩
  cases resps with
  | nil => rfl
  | cons nr rest => cases nr <;> rfl

theorem httpDo_resps (req : Request) (s : NetState) :
    (httpDo req s).2.resps = s.resps.tail := by
  rcases s with ⟨resps, trace⟩
  cases resps with
  | nil => rfl
  | cons nr rest => cases nr <;> rfl

/-- Every branch of `getCrumb` returns the state produced by its single
crumb GET. -/
theorem getCrumb_state (c : Client) (s : NetState) :
    (c.getCrumb s).2 = (httpDo (crumbRequest c) s).2 := by
  rw [Client.getCrumb]
  rcases h : httpDo (crumbRequest c) s with ⟨res, s'⟩
  rcases res with r | e | m
  · simp only []
    repeat' split
    all_goals rfl
  · rfl
  · rfl

/-- `doRequest` on a GET: one request built from the client's base URL,
credentials and Accept header; the scripted outcome is consumed (transport
errors wrapped). -/
theorem doRequest_get_eq (c : Client) (path : String) (s : NetState) :
    c.doRequest .get path s = httpDoWrap (getRequest c path) s := by
  rfl

/-- `doRequest` on a POST: first the crumb handshake (whose failures are
swallowed), then the mutating request carrying the crumb header exactly when
a non-empty crumb was fetched. -/
theorem doRequest_post_eq (c : Client) (path : String) (s : NetState) :
    c.doRequest .post path s =
      httpDoWrap (postRequest c path (crumbHeaders c s)) ((c.getCrumb s).2) := by
  rw [Client.doRequest, crumbHeaders]
  rcases h : c.getCrumb s with ⟨res, s'⟩
  rcases res with fc | e | m <;> simp only [] <;> rfl

theorem httpDoWrap_state (req : Request) (s : NetState) :
    (httpDoWrap req s).2 = (httpDo req s).2 := by
  rw [httpDoWrap]
  rcases h : httpDo req s with ⟨res, s2⟩
  rcases res with r | e | m <;> rfl

/-- C7: exactly one authentication scheme is chosen from the configured
credentials — token as basic-auth password when a token is configured, else
username/password basic auth when both are configured, else none — and every
request put on the wire by the request executor carries exactly that
scheme. -/
theorem claim_C7_authentication (c : Client) :
    (c.apiToken ≠ "" → c.addAuthentication = .basic c.username c.apiToken) ∧
    (c.apiToken = "" → c.username ≠ "" → c.password ≠ "" →
      c.addAuthentication = .basic c.username c.password) ∧
    (c.apiToken = "" → (c.username = "" ∨ c.password = "") →
      c.addAuthentication = .noAuth) ∧
    (∀ method path s, ∃ l, (c.doRequest method path s).2.trace = s.trace ++ l ∧
      ∀ r, Event.req r ∈ l → r.auth = c.addAuthentication) := by
  refine ⟨?_, ?_, ?_, ?_⟩
  · intro h
    rw [Client.addAuthentication, if_pos h]
  · intro h hu hp
    rw [Client.addAuthentication, if_neg (by simp [h]), if_pos ⟨hu, hp⟩]
  · intro h hup
    rw [Client.addAuthentication, if_neg (by simp [h]), if_neg (by tauto)]
  · intro method path s
    cases method with
    | get =>
      refine ⟨[.req (getRequest c path)], ?_, ?_⟩
      · rw [doRequest_get_eq, httpDoWrap_state, httpDo_trace]
      · intro r hr
        simp only [List.mem_singleton, Event.req.injEq] at hr
        subst hr
        rfl
    | post =>
      refine ⟨[.req (crumbRequest c),
        .req (postRequest c path (crumbHeaders c s))], ?_, ?_⟩
      · rw [doRequest_post_eq, httpDoWrap_state, httpDo_trace, getCrumb_state,
          httpDo_trace, List.append_assoc]
        rfl
      · intro r hr
        simp only [List.mem_cons, List.mem_singleton, Event.req.injEq,
          List.not_mem_nil, or_false] at hr
        rcases hr with h | h <;> subst h <;> rfl

/-- Witness for C7: the three credential configurations at concrete
clients. -/
theorem claim_C7_authentication_witness :
    Client.addAuthentication ⟨"http://j", "alice", "pw", "tok", 3, 1⟩ = .basic "alice" "tok" ∧
    Client.addAuthentication ⟨"http://j", "alice", "pw", "", 3, 1⟩ = .basic "alice" "pw" ∧
    Client.addAuthentication ⟨"http://j", "", "", "", 3, 1⟩ = .noAuth :=
  ⟨(claim_C7_authentication _).1 (by decide),
   (claim_C7_authentication _).2.1 rfl (by decide) (by decide),
   (claim_C7_authentication _).2.2.1 rfl (Or.inl rfl)⟩

/-- The crumb fetch's outcome on a scripted 404: no token, no error. -/
theorem getCrumb_notFound (c : Client) (r : Response) (tail : List NetResult)
    (trace : List Event) (h404 : r.status = 404) :
    c.getCrumb ⟨.resp r :: tail, trace⟩ =
      (.ok ("", ""), ⟨tail, trace ++ [.req (crumbRequest c)]⟩) := by
  rw [Client.getCrumb]
  simp [httpDo, h404]

/-- C6: before every mutating (POST) request the client first issues the
crumb GET; when the crumb endpoint answers 404 the handshake yields no token
and no error and the POST proceeds with no crumb header; a transport
failure, an unexpected status, or a malformed crumb body are all swallowed
and the POST likewise proceeds with no crumb header. -/
theorem claim_C6_crumb_swallowed (c : Client) (path : String) :
    (∀ s, ∃ rest, (c.doRequest .post path s).2.trace =
        s.trace ++ Event.req (crumbRequest c) :: rest) ∧
    (∀ tail trace r, r.status = 404 →
      c.getCrumb ⟨.resp r :: tail, trace⟩ =
        (.ok ("", ""), ⟨tail, trace ++ [.req (crumbRequest c)]⟩) ∧
      c.doRequest .post path ⟨.resp r :: tail, trace⟩ =
        httpDoWrap (postRequest c path []) ⟨tail, trace ++ [.req (crumbRequest c)]⟩) ∧
    (∀ tail trace e,
      c.doRequest .post path ⟨.err e :: tail, trace⟩ =
        httpDoWrap (postRequest c path []) ⟨tail, trace ++ [.req (crumbRequest c)]⟩) ∧
    (∀ tail trace r, r.status ≠ 404 → r.status ≠ 200 →
      c.doRequest .post path ⟨.resp r :: tail, trace⟩ =
        httpDoWrap (postRequest c path []) ⟨tail, trace ++ [.req (crumbRequest c)]⟩) ∧
    (∀ tail trace r msg, r.status = 200 → decodeCrumbData r.bodyJson = .error msg →
      c.doRequest .post path ⟨.resp r :: tail, trace⟩ =
        httpDoWrap (postRequest c path []) ⟨tail, trace ++ [.req (crumbRequest c)]⟩) := by
  refine ⟨?_, ?_, ?_, ?_, ?_⟩
  · intro s
    refine ⟨[.req (postRequest c path (crumbHeaders c s))], ?_⟩
    rw [doRequest_post_eq, httpDoWrap_state, httpDo_trace, getCrumb_state,
      httpDo_trace, List.append_assoc]
    rfl
  · intro tail trace r h404
    have hc := getCrumb_notFound c r tail trace h404
    refine ⟨hc, ?_⟩
    rw [doRequest_post_eq, hc]
    rw [show crumbHeaders c ⟨.resp r :: tail, trace⟩ = [] from by
      rw [crumbHeaders, hc]
      rfl]
  · intro tail trace e
    have hc : c.getCrumb ⟨.err e :: tail, trace⟩ =
        (.err ("crumb request failed: " ++ e), ⟨tail, trace ++ [.req (crumbRequest c)]⟩) := by
      rw [Client.getCrumb]
      simp [httpDo]
    rw [doRequest_post_eq, hc]
    rw [show crumbHeaders c ⟨.err e :: tail, trace⟩ = [] from by
      rw [crumbHeaders, hc]]
  · intro tail trace r h404 h200
    have hc : c.getCrumb ⟨.resp r :: tail, trace⟩ =
        (.err ("unexpected status code " ++ toString r.status ++ " when fetching crumb"),
         ⟨tail, trace ++ [.req (crumbRequest c)]⟩) := by
      rw [Client.getCrumb]
      simp [httpDo, h404, h200]
    rw [doRequest_post_eq, hc]
    rw [show crumbHeaders c ⟨.resp r :: tail, trace⟩ = [] from by
      rw [crumbHeaders, hc]]
  · intro tail trace r msg h200 hdec
    have hc : c.getCrumb ⟨.resp r :: tail, trace⟩ =
        (.err msg, ⟨tail, trace ++ [.req (crumbRequest c)]⟩) := by
      rw [Client.getCrumb]
      simp [httpDo, h200, hdec]
    rw [doRequest_post_eq, hc]
    rw [show crumbHeaders c ⟨.resp r :: tail, trace⟩ = [] from by
      rw [crumbHeaders, hc]]

/-- Witness for C6: a concrete POST against a script whose crumb endpoint
answers 404; the handshake reports no token and no error and the POST is
sent without a crumb header. -/
theorem claim_C6_crumb_swallowed_witness :
    Client.getCrumb ⟨"http://j", "u", "p", "tok", 3, 1⟩
        ⟨[.resp ⟨404, "", "", none⟩, .resp ⟨201, "/queue/item/7/", "", none⟩], []⟩ =
      (.ok ("", ""),
       ⟨[.resp ⟨201, "/queue/item/7/", "", none⟩],
        [.req (crumbRequest ⟨"http://j", "u", "p", "tok", 3, 1⟩)]⟩) ∧
    Client.doRequest ⟨"http://j", "u", "p", "tok", 3, 1⟩ .post "/job/x/build"
        ⟨[.resp ⟨404, "", "", none⟩, .resp ⟨201, "/queue/item/7/", "", none⟩], []⟩ =
      httpDoWrap (postRequest ⟨"http://j", "u", "p", "tok", 3, 1⟩ "/job/x/build" [])
        ⟨[.resp ⟨201, "/queue/item/7/", "", none⟩],
         [.req (crumbRequest ⟨"http://j", "u", "p", "tok", 3, 1⟩)]⟩ := by
  have h := (claim_C6_crumb_swallowed ⟨"http://j", "u", "p", "tok", 3, 1⟩ "/job/x/build").2.1
    [.resp ⟨201, "/queue/item/7/", "", none⟩] [] ⟨404, "", "", none⟩ rfl
  exact h

/-!  ## Lemmas for the decoders (C8)  -/

theorem except_bind_ok {ε α β : Type} (x : Except ε α) (f : α → Except ε β) (b : β) :
    (x >>= f = .ok b) ↔ ∃ a, x = .ok a ∧ f a = .ok b := by
  cases x with
  | error e => simp [Bind.bind, Except.bind]
  | ok a => simp [Bind.bind, Except.bind]

theorem httpDoWrap_resp (req : Request) (r : Response) (tail : List NetResult)
    (trace : List Event) :
    httpDoWrap req ⟨.resp r :: tail, trace⟩ =
      (.ok r, ⟨tail, trace ++ [.req req]⟩) := rfl

theorem httpDoWrap_err (req : Request) (e : String) (tail : List NetResult)
    (trace : List Event) :
    httpDoWrap req ⟨.err e :: tail, trace⟩ =
      (.err ("request failed: " ++ e), ⟨tail, trace ++ [.req req]⟩) := rfl

/-- A successful `decodeJobDetails` of an object body always produces a
non-nil `parameters` slice: the fold over the decoded `property` wrapper,
started from the empty non-nil slice. -/
theorem decodeJobDetails_ok_params (fs : List (String × Json)) (jd : JobDetails)
    (h : decodeJobDetails (some (.obj fs)) = .ok jd) :
    ∃ property, decodeSliceField decodeRawProperty (lookupPairs fs "property") = .ok property ∧
      jd.parameters = some ((sliceToList property).foldl (fun acc pd => acc ++ sliceToList pd) []) := by
  rw [decodeJobDetails] at h
  simp only [except_bind_ok, pure] at h
  obtain ⟨name, h1, url, h2, description, h3, buildable, h4, inQueue, h5, color, h6,
    disabled, h7, lastBuild, h8, lastSuccessfulBuild, h9, lastFailedBuild, h10,
    property, h11, hfin⟩ := h
  refine ⟨property, h11, ?_⟩
  cases hfin
  rfl

/-- A successful `GetJob` against a scripted response is exactly a successful
decode of that response's body. -/
theorem getJob_ok_decode (c : Client) (jobName : String) (tail : List NetResult)
    (trace : List Event) (r : Response) (jd : JobDetails)
    (h : (c.GetJob jobName ⟨.resp r :: tail, trace⟩).1 = .ok jd) :
    decodeJobDetails r.bodyJson = .ok jd := by
  by_cases hname : jobName = ""
  · rw [Client.GetJob, if_pos hname] at h
    simp at h
  · rw [Client.GetJob, if_neg hname] at h
    rw [doRequest_get_eq, httpDoWrap_resp] at h
    by_cases h404 : r.status = 404
    · simp [h404] at h
    · by_cases h403 : r.status = 403
      · simp [h404, h403] at h
      · by_cases h200 : r.status = 200
        · simp only [h404, h403, if_false, if_neg h404, if_neg h403, h200] at h
          cases hdec : decodeJobDetails r.bodyJson with
          | error e => rw [hdec] at h; simp at h
          | ok jd' => rw [hdec] at h; simp at h; subst h; rfl
        · simp [h404, h403, h200] at h

/-- C8: decoders never surface null collections.  A successful `ListJobs`
whose JSON `jobs` field is `null` or `[]` returns the empty non-nil slice
(not an error), and a successful `GetJob` whose `property` wrapper is
absent, `null` or empty produces the empty non-nil `parameters` slice. -/
theorem claim_C8_no_null_collections (c : Client) :
    (∀ folder tail trace (r : Response), r.status = 200 →
      r.bodyJson = some (.obj [("jobs", Json.null)]) →
      (c.ListJobs folder ⟨.resp r :: tail, trace⟩).1 = .ok (some [])) ∧
    (∀ folder tail trace (r : Response), r.status = 200 →
      r.bodyJson = some (.obj [("jobs", Json.arr [])]) →
      (c.ListJobs folder ⟨.resp r :: tail, trace⟩).1 = .ok (some [])) ∧
    (∀ jobName tail trace (r : Response) fs jd,
      r.bodyJson = some (.obj fs) →
      (lookupPairs fs "property" = none ∨ lookupPairs fs "property" = some Json.null ∨
        lookupPairs fs "property" = some (Json.arr [])) →
      (c.GetJob jobName ⟨.resp r :: tail, trace⟩).1 = .ok jd →
      jd.parameters = some []) := by
  refine ⟨?_, ?_, ?_⟩
  · intro folder tail trace r h200 hjson
    rw [Client.ListJobs]
    rw [doRequest_get_eq, httpDoWrap_resp]
    simp [h200, hjson, decodeListJobsResult, decodeSliceField, lookupPairs]
  · intro folder tail trace r h200 hjson
    rw [Client.ListJobs]
    rw [doRequest_get_eq, httpDoWrap_resp]
    simp [h200, hjson, decodeListJobsResult, decodeSliceField, lookupPairs, List.mapM,
      List.mapM.loop]
    rfl
  · intro jobName tail trace r fs jd hjson hprop hok
    have hdec := getJob_ok_decode c jobName tail trace r jd hok
    rw [hjson] at hdec
    obtain ⟨property, hp, hparams⟩ := decodeJobDetails_ok_params fs jd hdec
    rw [hparams]
    rcases hprop with h | h | h
    · rw [h, decodeSliceField] at hp
      injection hp with hp
      subst hp
      rfl
    · rw [h, decodeSliceField] at hp
      injection hp with hp
      subst hp
      rfl
    · rw [h, decodeSliceField] at hp
      have heval : ((([] : List Json)).mapM decodeRawProperty).map some =
          Except.ok (some ([] : List (Option (List JobParameter)))) := rfl
      rw [heval] at hp
      injection hp with hp
      subst hp
      rfl

/-!  ## Lemmas for trigger-build parameter validation (C1)  -/

/-- Every branch of `GetJob` (past the name guard) ends in the state of its
single GET. -/
theorem getJob_state (c : Client) (jobName : String) (s : NetState)
    (h : jobName ≠ "") :
    (c.GetJob jobName s).2 =
      (c.doRequest .get ("/job/" ++ jobName ++ "/api/json" ++ getJobTree) s).2 := by
  rw [Client.GetJob, if_neg h]
  generalize c.doRequest .get ("/job/" ++ jobName ++ "/api/json" ++ getJobTree) s = res
  rcases res with ⟨res1, s'⟩
  rcases res1 with r | e | m
  · simp only []
    repeat' split
    all_goals rfl
  · rfl
  · rfl

/-- `GetJob` adds only GET requests (and no sleeps) to the trace. -/
theorem getJob_trace (c : Client) (jobName : String) (s : NetState) :
    ∃ l, (c.GetJob jobName s).2.trace = s.trace ++ l ∧
      ∀ r : Request, Event.req r ∈ l → r.method = .get := by
  by_cases h : jobName = ""
  · refine ⟨[], ?_, by simp⟩
    rw [Client.GetJob, if_pos h]
    simp
  · refine ⟨[.req (getRequest c ("/job/" ++ jobName ++ "/api/json" ++ getJobTree))], ?_, ?_⟩
    · rw [getJob_state c jobName s h, doRequest_get_eq, httpDoWrap_state, httpDo_trace]
    · intro r hr
      simp only [List.mem_singleton, Event.req.injEq] at hr
      subst hr
      rfl

/-- C1: when the supplied parameter map has a key missing from the fetched
job schema, `TriggerBuild` fails with the invalid-parameter error naming an
offending key, leaves the network state exactly as the schema fetch left it
(so no POST is ever issued), and the whole trace contains only GETs beyond
the caller's. -/
theorem claim_C1_validate_before_send (c : Client) (jobName : String)
    (params : List (String × String)) (s : NetState) (jd : JobDetails)
    (hname : jobName ≠ "")
    (hjob : (c.GetJob jobName s).1 = .ok jd)
    (hbad : ∃ p ∈ params,
      ((sliceToList jd.parameters).map (·.name)).contains p.1 = false) :
    ∃ k, (∃ v, (k, v) ∈ params) ∧
      ((sliceToList jd.parameters).map (·.name)).contains k = false ∧
      (c.TriggerBuild jobName params s).1 =
        .err ("parameter validation failed: " ++
          ("invalid parameter: " ++ k ++ " is not defined for this job")) ∧
      (c.TriggerBuild jobName params s).2 = (c.GetJob jobName s).2 ∧
      ∃ l, (c.TriggerBuild jobName params s).2.trace = s.trace ++ l ∧
        ∀ r : Request, Event.req r ∈ l → r.method = .get := by
  have hpair : c.GetJob jobName s = (.ok jd, (c.GetJob jobName s).2) := by
    rw [← hjob]
  have hfind : (params.find?
      (fun p => !(((sliceToList jd.parameters).map (·.name)).contains p.1))).isSome := by
    rw [List.find?_isSome]
    obtain ⟨p, hmem, hp⟩ := hbad
    refine ⟨p, hmem, ?_⟩
    simp only [Bool.not_eq_true']
    exact hp
  obtain ⟨q, hq⟩ := Option.isSome_iff_exists.mp hfind
  have hqmem := List.mem_of_find?_eq_some hq
  have hqpred := List.find?_some hq
  have hqbad : ((sliceToList jd.parameters).map (·.name)).contains q.1 = false := by
    simpa using hqpred
  have hlen : 0 < params.length := List.length_pos.mpr (List.ne_nil_of_mem hqmem)
  have hvalidate : Client.validateParameters jd params =
      .error ("invalid parameter: " ++ q.1 ++ " is not defined for this job") := by
    rw [Client.validateParameters]
    rw [hq]
  have heval : c.TriggerBuild jobName params s =
      (.err ("parameter validation failed: " ++
        ("invalid parameter: " ++ q.1 ++ " is not defined for this job")),
       (c.GetJob jobName s).2) := by
    rw [Client.TriggerBuild, if_neg hname, hpair]
    simp only []
    rw [if_pos hlen, hvalidate]
  obtain ⟨l, hl, hlget⟩ := getJob_trace c jobName s
  refine ⟨q.1, ⟨q.2, by simpa using hqmem⟩, hqbad, ?_, ?_, ⟨l, ?_, hlget⟩⟩
  · rw [heval]
  · rw [heval]
  · rw [heval]
    exact hl

/-- Witness for C1: a job whose schema has the single parameter `bar`,
triggered with the unknown parameter `foo`, fails with the invalid-parameter
error naming `foo`. -/
theorem claim_C1_validate_before_send_witness :
    (Client.TriggerBuild ⟨"http://j", "u", "p", "tok", 3, 1⟩ "job1" [("foo", "x")]
      ⟨[.resp ⟨200, "", "", some (.obj [("name", .str "job1"),
        ("property", .arr [.obj [("parameterDefinitions",
          .arr [.obj [("name", .str "bar")]])]])])⟩], []⟩).1 =
      .err ("parameter validation failed: " ++
        ("invalid parameter: " ++ "foo" ++ " is not defined for this job")) := by
  obtain ⟨k, ⟨v, hkv⟩, hk, herr, hstate, htrace⟩ :=
    claim_C1_validate_before_send ⟨"http://j", "u", "p", "tok", 3, 1⟩ "job1"
      [("foo", "x")]
      ⟨[.resp ⟨200, "", "", some (.obj [("name", .str "job1"),
        ("property", .arr [.obj [("parameterDefinitions",
          .arr [.obj [("name", .str "bar")]])]])])⟩], []⟩
      ⟨⟨"job1", "", "", false, false, ""⟩, none, none, none,
        some [⟨"bar", "", none, ""⟩], false⟩
      (by decide) rfl ⟨("foo", "x"), by simp, by decide⟩
  have hkfoo : k = "foo" := by
    have := hkv
    simp at this
    exact this.1
  rw [hkfoo] at herr
  exact herr

/-!  ## Lemmas for stop-build (C3, C4)  -/

/-- Every branch of `GetBuild` (past the argument guards) ends in the state
of its single GET. -/
theorem getBuild_state (c : Client) (j : String) (n : Int) (s : NetState)
    (hj : j ≠ "") (hn : ¬ n ≤ 0) :
    (c.GetBuild j n s).2 =
      (c.doRequest .get ("/job/" ++ j ++ "/" ++ toString n ++
        "/api/json?tree=number,url,result,building,duration,timestamp,executor,estimatedDuration") s).2 := by
  rw [Client.GetBuild, if_neg hj, if_neg hn]
  generalize c.doRequest .get ("/job/" ++ j ++ "/" ++ toString n ++
    "/api/json?tree=number,url,result,building,duration,timestamp,executor,estimatedDuration") s = res
  rcases res with ⟨res1, s'⟩
  rcases res1 with r | e | m
  · simp only []
    repeat' split
    all_goals rfl
  · rfl
  · rfl

/-- `GetBuild` adds at most one event to the trace: its GET request. -/
theorem getBuild_trace (c : Client) (j : String) (n : Int) (s : NetState) :
    ∃ l, (c.GetBuild j n s).2.trace = s.trace ++ l ∧
      (∀ r : Request, Event.req r ∈ l → r.method = .get) ∧ l.length ≤ 1 := by
  by_cases hj : j = ""
  · refine ⟨[], ?_, by simp, by simp⟩
    rw [Client.GetBuild, if_pos hj]
    simp
  · by_cases hn : n ≤ 0
    · refine ⟨[], ?_, by simp, by simp⟩
      rw [Client.GetBuild, if_neg hj, if_pos hn]
      simp
    · refine ⟨[.req (getRequest c ("/job/" ++ j ++ "/" ++ toString n ++
        "/api/json?tree=number,url,result,building,duration,timestamp,executor,estimatedDuration"))],
        ?_, ?_, by simp⟩
      · rw [getBuild_state c j n s hj hn, doRequest_get_eq, httpDoWrap_state, httpDo_trace]
      · intro r hr
        simp only [List.mem_singleton, Event.req.injEq] at hr
        subst hr
        rfl

/-- C3: when the build fetched at the start of `StopBuild` is not building,
the operation fails immediately with the "not running" error carrying the
fetched result, the network state is exactly the one the status fetch left
(no stop POST, no crumb fetch, no further calls), and at most the one
status GET was added to the trace. -/
theorem claim_C3_stop_requires_running (c : Client) (j : String) (n : Int)
    (s : NetState) (b : Build)
    (hj : j ≠ "") (hn : 0 < n)
    (hget : (c.GetBuild j n s).1 = .ok b)
    (hnb : b.building = false) :
    (c.StopBuild j n s).1 = .err ("build is not running: job=" ++ j ++
      ", build=" ++ toString n ++ ", status=" ++ b.result) ∧
    (c.StopBuild j n s).2 = (c.GetBuild j n s).2 ∧
    ∃ l, (c.StopBuild j n s).2.trace = s.trace ++ l ∧
      (∀ r : Request, Event.req r ∈ l → r.method = .get) ∧ l.length ≤ 1 := by
  have hn' : ¬ n ≤ 0 := by omega
  have hpair : c.GetBuild j n s = (.ok b, (c.GetBuild j n s).2) := by
    rw [← hget]
  have heval : c.StopBuild j n s =
      (.err ("build is not running: job=" ++ j ++ ", build=" ++ toString n ++
        ", status=" ++ b.result), (c.GetBuild j n s).2) := by
    rw [Client.StopBuild, if_neg hj, if_neg hn', hpair]
    simp only []
    rw [if_pos (by simp [hnb])]
  obtain ⟨l, hl, hlget, hllen⟩ := getBuild_trace c j n s
  refine ⟨by rw [heval], by rw [heval], ⟨l, ?_, hlget, hllen⟩⟩
  rw [heval]
  exact hl

/-- Witness for C3: a finished build (`building = false, result = SUCCESS`)
makes `StopBuild` fail with the "not running" error without touching the
rest of the script. -/
theorem claim_C3_stop_requires_running_witness :
    (Client.StopBuild ⟨"http://j", "u", "p", "tok", 3, 1⟩ "job1" 5
      ⟨[.resp ⟨200, "", "", some (.obj [("number", .num 5), ("building", .bool false),
        ("result", .str "SUCCESS")])⟩], []⟩).1 =
      .err ("build is not running: job=" ++ "job1" ++ ", build=" ++ toString (5 : Int) ++
        ", status=" ++ "SUCCESS") :=
  (claim_C3_stop_requires_running ⟨"http://j", "u", "p", "tok", 3, 1⟩ "job1" 5
    ⟨[.resp ⟨200, "", "", some (.obj [("number", .num 5), ("building", .bool false),
      ("result", .str "SUCCESS")])⟩], []⟩
    ⟨5, "", "SUCCESS", false, 0, 0, "", 0⟩
    (by decide) (by omega) rfl rfl).1

/-- C4: once the stop mutation is accepted (200/302/204), `StopBuild`
re-fetches the build after the fixed settle delay and succeeds exactly when
the re-fetched build has stopped with result `ABORTED`; a build still
running yields the "still running after stop request" error, and a terminal
build with any other result yields the unexpected-state error reporting that
result.  The final network state is the one left by the delayed re-fetch. -/
theorem claim_C4_stop_poll_verify (c : Client) (j : String) (n : Int)
    (s : NetState) (b1 : Build) (r : Response) (b2 : Build)
    (hj : j ≠ "") (hn : 0 < n)
    (h1 : (c.GetBuild j n s).1 = .ok b1) (hb1 : b1.building = true)
    (h2 : (c.doRequest .post ("/job/" ++ j ++ "/" ++ toString n ++ "/stop")
      ((c.GetBuild j n s).2)).1 = .ok r)
    (hr : r.status = 200 ∨ r.status = 302 ∨ r.status = 204)
    (h3 : (c.GetBuild j n (settleSleep ((c.doRequest .post
      ("/job/" ++ j ++ "/" ++ toString n ++ "/stop") ((c.GetBuild j n s).2)).2))).1 =
      .ok b2) :
    ((c.StopBuild j n s).1 = .ok () ↔ (b2.building = false ∧ b2.result = "ABORTED")) ∧
    (b2.building = true → (c.StopBuild j n s).1 =
      .err ("build is still running after stop request: job=" ++ j ++
        ", build=" ++ toString n)) ∧
    (b2.building = false → b2.result ≠ "ABORTED" → (c.StopBuild j n s).1 =
      .err ("build status is " ++ b2.result ++ ", expected ABORTED: job=" ++ j ++
        ", build=" ++ toString n)) ∧
    (c.StopBuild j n s).2 = (c.GetBuild j n (settleSleep ((c.doRequest .post
      ("/job/" ++ j ++ "/" ++ toString n ++ "/stop") ((c.GetBuild j n s).2)).2))).2 := by
  have hn' : ¬ n ≤ 0 := by omega
  have hpair1 : c.GetBuild j n s = (.ok b1, (c.GetBuild j n s).2) := by rw [← h1]
  have h404 : ¬ r.status = 404 := by rcases hr with h | h | h <;> omega
  have h403 : ¬ r.status = 403 := by rcases hr with h | h | h <;> omega
  have hstat : ¬ (r.status ≠ 200 ∧ r.status ≠ 302 ∧ r.status ≠ 204) := by
    rcases hr with h | h | h <;> simp [h]
  have heval : c.StopBuild j n s =
      (if b2.building then
        .err ("build is still running after stop request: job=" ++ j ++
          ", build=" ++ toString n)
      else if b2.result ≠ "ABORTED" then
        .err ("build status is " ++ b2.result ++ ", expected ABORTED: job=" ++ j ++
          ", build=" ++ toString n)
      else .ok (),
      (c.GetBuild j n (settleSleep ((c.doRequest .post
        ("/job/" ++ j ++ "/" ++ toString n ++ "/stop") ((c.GetBuild j n s).2)).2))).2) := by
    have hpair2 : c.doRequest .post ("/job/" ++ j ++ "/" ++ toString n ++ "/stop")
        ((c.GetBuild j n s).2) =
        (.ok r, (c.doRequest .post ("/job/" ++ j ++ "/" ++ toString n ++ "/stop")
          ((c.GetBuild j n s).2)).2) := by rw [← h2]
    have hpair3 : c.GetBuild j n (settleSleep ((c.doRequest .post
        ("/job/" ++ j ++ "/" ++ toString n ++ "/stop") ((c.GetBuild j n s).2)).2)) =
        (.ok b2, (c.GetBuild j n (settleSleep ((c.doRequest .post
          ("/job/" ++ j ++ "/" ++ toString n ++ "/stop") ((c.GetBuild j n s).2)).2))).2) := by
      rw [← h3]
    rw [Client.StopBuild, if_neg hj, if_neg hn', hpair1]
    simp only []
    rw [if_neg (by simp [hb1]), hpair2]
    simp only []
    rw [if_neg h404, if_neg h403, if_neg hstat, hpair3]
    simp only []
    by_cases hb : b2.building = true
    · simp [hb]
    · by_cases ha : b2.result = "ABORTED" <;> simp [hb, ha]
  refine ⟨?_, ?_, ?_, by rw [heval]⟩
  · rw [heval]
    by_cases hb : b2.building
    · simp [hb]
    · by_cases ha : b2.result = "ABORTED"
      · simp [hb, ha]
      · simp [hb, ha]
  · intro hb
    rw [heval]
    simp [hb]
  · intro hb ha
    rw [heval]
    simp [hb, ha]

/-- Witness for C4: a running build, an accepted stop (200), and a re-fetch
showing `building = false, result = ABORTED` make `StopBuild` succeed. -/
theorem claim_C4_stop_poll_verify_witness :
    (Client.StopBuild ⟨"http://j", "u", "p", "tok", 3, 1⟩ "job1" 5
      ⟨[.resp ⟨200, "", "", some (.obj [("number", .num 5), ("building", .bool true)])⟩,
        .resp ⟨404, "", "", none⟩,
        .resp ⟨200, "", "", none⟩,
        .resp ⟨200, "", "", some (.obj [("number", .num 5), ("building", .bool false),
          ("result", .str "ABORTED")])⟩], []⟩).1 = .ok () :=
  (claim_C4_stop_poll_verify ⟨"http://j", "u", "p", "tok", 3, 1⟩ "job1" 5
    ⟨[.resp ⟨200, "", "", some (.obj [("number", .num 5), ("building", .bool true)])⟩,
      .resp ⟨404, "", "", none⟩,
      .resp ⟨200, "", "", none⟩,
      .resp ⟨200, "", "", some (.obj [("number", .num 5), ("building", .bool false),
        ("result", .str "ABORTED")])⟩], []⟩
    ⟨5, "", "", true, 0, 0, "", 0⟩ ⟨200, "", "", none⟩
    ⟨5, "", "ABORTED", false, 0, 0, "", 0⟩
    (by decide) (by omega) rfl rfl rfl (Or.inl rfl) rfl).1.mpr ⟨rfl, rfl⟩

/-- Witness for C8: `{"jobs": null}` and `{"jobs": []}` responses give the
empty non-nil job list, and a `GetJob` body with no `property` wrapper gives
the empty non-nil parameter list. -/
theorem claim_C8_no_null_collections_witness :
    (Client.ListJobs ⟨"http://j", "u", "p", "tok", 3, 1⟩ ""
      ⟨[.resp ⟨200, "", "", some (.obj [("jobs", Json.null)])⟩], []⟩).1 = .ok (some []) ∧
    (Client.ListJobs ⟨"http://j", "u", "p", "tok", 3, 1⟩ ""
      ⟨[.resp ⟨200, "", "", some (.obj [("jobs", Json.arr [])])⟩], []⟩).1 = .ok (some []) ∧
    JobDetails.parameters ⟨⟨"job1", "", "", false, false, ""⟩, none, none, none,
      some [], false⟩ = some [] :=
  ⟨(claim_C8_no_null_collections ⟨"http://j", "u", "p", "tok", 3, 1⟩).1
      "" [] [] ⟨200, "", "", some (.obj [("jobs", Json.null)])⟩ rfl rfl,
   (claim_C8_no_null_collections ⟨"http://j", "u", "p", "tok", 3, 1⟩).2.1
      "" [] [] ⟨200, "", "", some (.obj [("jobs", Json.arr [])])⟩ rfl rfl,
   (claim_C8_no_null_collections ⟨"http://j", "u", "p", "tok", 3, 1⟩).2.2
      "job1" [] [] ⟨200, "", "", some (.obj [("name", .str "job1")])⟩
      [("name", .str "job1")]
      ⟨⟨"job1", "", "", false, false, ""⟩, none, none, none, some [], false⟩
      rfl (Or.inl rfl) rfl⟩

/-- C5 (code bug): when the `Location` header is absent, the body-scanning
fallback does extract `/queue/item/42/` from a 201 response body (first
conjunct), but on a 200/201 response whose body is a JSON object with no
queue-item path and no `_links` object, the unchecked type assertions in
`generateQueueLocationFromResponse` panic instead of producing the
documented diagnostic error (second conjunct evaluates the code at the
failing input). -/
theorem claim_C5_location_fallback_panics :
    (Client.TriggerBuild ⟨"http://j", "u", "p", "tok", 3, 1⟩ "j" []
      ⟨[.resp ⟨200, "", "", some (.obj [])⟩,
        .resp ⟨404, "", "", none⟩,
        .resp ⟨201, "", "<html><a href='/queue/item/42/'>queued</a></html>", none⟩], []⟩).1 =
      .ok ⟨42, "j", "", false, false, false, 0, none⟩ ∧
    (Client.TriggerBuild ⟨"http://j", "u", "p", "tok", 3, 1⟩ "j" []
      ⟨[.resp ⟨200, "", "", some (.obj [])⟩,
        .resp ⟨404, "", "", none⟩,
        .resp ⟨200, "", "{}", some (.obj [])⟩], []⟩).1 =
      .panic "interface conversion: interface {} is nil, not map[string]interface {}" := by
  constructor
  · rfl
  · rfl

/-!  ## Lemmas about substring scanning (C9, C10)  -/

theorem isPrefixOf_append_self (p r : List Char) : p.isPrefixOf (p ++ r) = true := by
  induction p with
  | nil => simp [List.isPrefixOf]
  | cons a as ih => simp [List.isPrefixOf, ih]

/-- A prefix test against `A ++ B` only looks at `A` when the pattern is no
longer than `A`. -/
theorem isPrefixOf_append_left (p A B : List Char) (hlen : p.length ≤ A.length) :
    p.isPrefixOf (A ++ B) = p.isPrefixOf A := by
  induction p generalizing A with
  | nil => simp [List.isPrefixOf]
  | cons x p' ih =>
    cases A with
    | nil => simp at hlen
    | cons a A' =>
      simp only [List.cons_append, List.isPrefixOf]
      congr 1
      exact ih A' (by simpa using hlen)

theorem containsSub_cons (pat : List Char) (c : Char) (l : List Char) :
    containsSub pat (c :: l) = (pat.isPrefixOf (c :: l) || containsSub pat l) := by
  rw [containsSub, containsSub, indexOfSub]
  by_cases h : pat.isPrefixOf (c :: l) = true
  · rw [if_pos h, h]
    simp
  · have hb : pat.isPrefixOf (c :: l) = false := Bool.eq_false_iff.mpr h
    rw [if_neg h, hb]
    simp [Option.isSome_map]

theorem containsSub_of_isPrefixOf (pat l : List Char) (h : pat.isPrefixOf l = true) :
    containsSub pat l = true := by
  cases l with
  | nil =>
    cases pat with
    | nil => rfl
    | cons p ps => simp [List.isPrefixOf] at h
  | cons c rest => rw [containsSub_cons, h, Bool.true_or]

/-- The straddle-freeness argument: if the pattern `init ++ [lastc]` does not
occur in `A ++ init` and `A` is non-empty, the pattern is not a prefix of
`A ++ pat ++ B` (an occurrence at position 0 would lie inside
`A ++ init`). -/
theorem isPrefixOf_false_of_not_contains (init A B : List Char) (lastc : Char)
    (hA : A ≠ [])
    (h : containsSub (init ++ [lastc]) (A ++ init) = false) :
    (init ++ [lastc]).isPrefixOf (A ++ (init ++ [lastc]) ++ B) = false := by
  by_contra hcon
  rw [Bool.not_eq_false] at hcon
  have hassoc : A ++ (init ++ [lastc]) ++ B = (A ++ init) ++ ([lastc] ++ B) := by
    simp [List.append_assoc]
  rw [hassoc] at hcon
  have hlen : (init ++ [lastc]).length ≤ (A ++ init).length := by
    have h1 : 1 ≤ A.length := by
      cases A with
      | nil => exact absurd rfl hA
      | cons a as => simp
    simp only [List.length_append, List.length_singleton]
    omega
  rw [isPrefixOf_append_left _ _ _ hlen] at hcon
  rw [containsSub_of_isPrefixOf _ _ hcon] at h
  cases h

/-- Scanning for the first occurrence of `init ++ [lastc]` in
`body ++ pat ++ post`, when the pattern does not occur earlier, returns
exactly the part before the appended pattern. -/
theorem takeToSub_concat (init : List Char) (lastc : Char) (body post : List Char)
    (h : containsSub (init ++ [lastc]) (body ++ init) = false) :
    takeToSub (init ++ [lastc]) (body ++ (init ++ [lastc]) ++ post) = some body := by
  induction body with
  | nil =>
    rw [List.nil_append]
    cases hpat : init ++ [lastc] with
    | nil => simp at hpat
    | cons pc pr =>
      have hp : (pc :: pr).isPrefixOf (pc :: (pr ++ post)) = true :=
        isPrefixOf_append_self (pc :: pr) post
      rw [List.cons_append, takeToSub, if_pos hp]
  | cons c body' ih =>
    have hpre : (init ++ [lastc]).isPrefixOf
        (c :: (body' ++ (init ++ [lastc]) ++ post)) = false := by
      have hp := isPrefixOf_false_of_not_contains init (c :: body') post lastc (by simp) h
      simpa using hp
    have htail : containsSub (init ++ [lastc]) (body' ++ init) = false := by
      have hc := containsSub_cons (init ++ [lastc]) c (body' ++ init)
      rw [show c :: (body' ++ init) = (c :: body') ++ init from rfl, h] at hc
      exact (Bool.or_eq_false_iff.mp hc.symm).2
    rw [show (c :: body') ++ (init ++ [lastc]) ++ post =
      c :: (body' ++ (init ++ [lastc]) ++ post) from by simp]
    rw [takeToSub, if_neg (fun hcon => by rw [hcon] at hpre; simp at hpre), ih htail]
    rfl

/-- Right-associated form of the straddle-freeness lemma. -/
theorem isPrefixOf_false_of_not_contains' (init A B : List Char) (lastc : Char)
    (hA : A ≠ [])
    (h : containsSub (init ++ [lastc]) (A ++ init) = false) :
    (init ++ [lastc]).isPrefixOf (A ++ ((init ++ [lastc]) ++ B)) = false := by
  have hp := isPrefixOf_false_of_not_contains init A B lastc hA h
  rwa [List.append_assoc] at hp

/-- Dropping an occurrence of the pattern out of a cons-shaped hypothesis:
no occurrence in `(c :: t) ++ init` gives no occurrence in `t ++ init`. -/
theorem containsSub_tail (pat : List Char) (c : Char) (t : List Char)
    (h : containsSub pat ((c :: t)) = false) : containsSub pat t = false := by
  rw [containsSub_cons] at h
  exact (Bool.or_eq_false_iff.mp h).2

/-- The leftmost match of the script-extraction scan on a document of the
shape `pre ++ <script> ++ body ++ </script> ++ post` is exactly `body`, when
no `<script>` occurs before the marked one and no `</script>` occurs inside
`body`. -/
theorem extractScript_concat (pre body post : List Char)
    (hpre : containsSub scOpen (pre ++ "<script".toList) = false)
    (hbody : containsSub scClose (body ++ "</script".toList) = false) :
    extractScript (pre ++ (scOpen ++ (body ++ (scClose ++ post)))) = some body := by
  induction pre with
  | nil =>
    simp only [List.nil_append]
    rw [show scOpen = '<' :: "script>".toList from rfl, List.cons_append]
    rw [extractScript]
    have hp : scOpen.isPrefixOf
        ('<' :: ("script>".toList ++ (body ++ (scClose ++ post)))) = true :=
      isPrefixOf_append_self "<script>".toList (body ++ (scClose ++ post))
    rw [if_pos hp]
    have hdrop : ('<' :: ("script>".toList ++ (body ++ (scClose ++ post)))).drop 8 =
        body ++ (scClose ++ post) := rfl
    rw [hdrop, ← List.append_assoc]
    have hbody' : containsSub ("</script".toList ++ ['>']) (body ++ "</script".toList) = false :=
      hbody
    have htk := takeToSub_concat "</script".toList '>' body post hbody'
    rw [show scClose = "</script".toList ++ ['>'] from rfl, htk]
  | cons c pre' ih =>
    rw [List.cons_append, extractScript]
    have hp : scOpen.isPrefixOf
        (c :: (pre' ++ (scOpen ++ (body ++ (scClose ++ post))))) = false := by
      have hpre' : containsSub ("<script".toList ++ ['>'])
          ((c :: pre') ++ "<script".toList) = false := hpre
      exact isPrefixOf_false_of_not_contains' "<script".toList (c :: pre')
        (body ++ (scClose ++ post)) '>' (by simp) hpre'
    rw [if_neg (fun hcon => by rw [hcon] at hp; simp at hp)]
    have htail : containsSub scOpen (pre' ++ "<script".toList) = false := by
      have hc : containsSub scOpen (c :: (pre' ++ "<script".toList)) = false := hpre
      exact containsSub_tail scOpen c _ hc
    exact ih htail

/-- `bytes.Index` on `A ++ pat ++ B` finds the appended occurrence when no
occurrence starts earlier. -/
theorem indexOfSub_concat (init : List Char) (lastc : Char) (A B : List Char)
    (h : containsSub (init ++ [lastc]) (A ++ init) = false) :
    indexOfSub (init ++ [lastc]) (A ++ ((init ++ [lastc]) ++ B)) = some A.length := by
  induction A with
  | nil =>
    simp only [List.nil_append]
    cases hpat : init ++ [lastc] with
    | nil => simp at hpat
    | cons pc pr =>
      rw [List.cons_append, indexOfSub]
      have hp : (pc :: pr).isPrefixOf (pc :: (pr ++ B)) = true :=
        isPrefixOf_append_self (pc :: pr) B
      rw [if_pos hp]
      rfl
  | cons c A' ih =>
    rw [List.cons_append, indexOfSub]
    have hp : (init ++ [lastc]).isPrefixOf
        (c :: (A' ++ ((init ++ [lastc]) ++ B))) = false := by
      have h' : containsSub (init ++ [lastc]) ((c :: A') ++ init) = false := h
      exact isPrefixOf_false_of_not_contains' init (c :: A') B lastc (by simp) h'
    rw [if_neg (fun hcon => by rw [hcon] at hp; simp at hp)]
    have htail : containsSub (init ++ [lastc]) (A' ++ init) = false :=
      containsSub_tail _ c _ h
    rw [ih htail]
    simp

/-!  ## Lemmas about decimal digits (C10)  -/

theorem digitChar_isDigit (d : Nat) : (digitChar d).isDigit = true := by
  rw [digitChar]
  repeat' split
  all_goals decide

theorem digitChar_toNat (d : Nat) (h : d < 10) : (digitChar d).toNat - 48 = d := by
  interval_cases d <;> decide

theorem isDigit_excludes (c : Char) (h : c.isDigit = true) :
    c ≠ ' ' ∧ c ≠ '-' ∧ c ≠ '+' ∧ c ≠ '/' := by
  refine ⟨?_, ?_, ?_, ?_⟩ <;> rintro rfl <;> exact absurd h (by decide)

theorem natToDigits_all_digits (fuel n : Nat) (c : Char)
    (h : c ∈ natToDigits fuel n) : c.isDigit = true := by
  induction fuel generalizing n with
  | zero => simp [natToDigits] at h
  | succ fuel ih =>
    rw [natToDigits] at h
    split at h
    · simp at h
      subst h
      exact digitChar_isDigit n
    · rw [List.mem_append] at h
      rcases h with h | h
      · exact ih (n / 10) h
      · simp at h
        subst h
        exact digitChar_isDigit (n % 10)

theorem natToDigits_ne_nil (fuel n : Nat) : natToDigits (fuel + 1) n ≠ [] := by
  rw [natToDigits]
  split
  · simp
  · simp

theorem digitsToNat_append (l : List Char) (c : Char) :
    digitsToNat (l ++ [c]) = 10 * digitsToNat l + (c.toNat - 48) := by
  rw [digitsToNat, digitsToNat, List.foldl_append]
  simp [Nat.mul_comm]

theorem digitsToNat_natToDigits (fuel n : Nat) (h : n < 10 ^ fuel) :
    digitsToNat (natToDigits fuel n) = n := by
  induction fuel generalizing n with
  | zero =>
    simp only [Nat.pow_zero, Nat.lt_one_iff] at h
    subst h
    rfl
  | succ fuel ih =>
    rw [natToDigits]
    split
    · rename_i hlt
      rw [digitsToNat]
      simp only [List.foldl_cons, List.foldl_nil]
      have := digitChar_toNat n hlt
      omega
    · rename_i hge
      rw [digitsToNat_append]
      have hdiv : n / 10 < 10 ^ fuel := by
        rw [Nat.pow_succ] at h
        omega
      rw [ih (n / 10) hdiv, digitChar_toNat (n % 10) (Nat.mod_lt n (by omega))]
      omega

theorem n_lt_ten_pow (n : Nat) : n < 10 ^ (n + 1) := by
  have h := Nat.lt_pow_self (by norm_num : (1 : Nat) < 10) (n + 1)
  omega

theorem decimalRepr_value (n : Nat) : digitsToNat (decimalRepr n).toList = n := by
  rw [decimalRepr]
  exact digitsToNat_natToDigits (n + 1) n (n_lt_ten_pow n)

/-!  ## Lemmas about suffix trimming and decimal scanning (C10)  -/

theorem string_toList_append (a b : String) : (a ++ b).toList = a.toList ++ b.toList := by
  cases a
  cases b
  rfl

theorem decimalRepr_toList (n : Nat) : (decimalRepr n).toList = natToDigits (n + 1) n := rfl

theorem trimSuffixSlash_append_slash (d : List Char) :
    trimSuffixSlash (d ++ ['/']) = d := by
  rw [trimSuffixSlash]
  rw [show (d ++ ['/']).reverse = '/' :: d.reverse from by simp]
  simp

theorem trimSuffixSlash_all_digits (l : List Char) (h : ∀ c ∈ l, c.isDigit = true) :
    trimSuffixSlash l = l := by
  rw [trimSuffixSlash]
  cases hrev : l.reverse with
  | nil => rfl
  | cons c r =>
    have hc : c ∈ l := by
      rw [← List.mem_reverse, hrev]
      simp
    have hd := isDigit_excludes c (h c hc)
    split
    · rename_i rr heq
      injection heq with h1 h2
      exact absurd h1 hd.2.2.2
    · rfl

theorem takeWhile_all (p : Char → Bool) (l : List Char) (h : ∀ c ∈ l, p c = true) :
    l.takeWhile p = l := by
  induction l with
  | nil => rfl
  | cons c rest ih =>
    rw [List.takeWhile_cons, h c (by simp)]
    simp [ih (fun c hc => h c (by simp [hc]))]

theorem parseDecimal_all_digits (l : List Char) (hne : l ≠ [])
    (h : ∀ c ∈ l, c.isDigit = true) :
    parseDecimal l = some ((digitsToNat l : Nat) : Int) := by
  cases l with
  | nil => exact absurd rfl hne
  | cons c rest =>
    have hc := h c (by simp)
    have hex := isDigit_excludes c hc
    rw [parseDecimal]
    rw [List.dropWhile_cons]
    rw [show (decide (c = ' ')) = false from by simp [hex.1]]
    simp only [Bool.false_eq_true, if_false]
    rw [if_neg hex.2.1, if_neg hex.2.2.1]
    rw [parseDigits]
    rw [takeWhile_all Char.isDigit (c :: rest) h]
    rw [if_neg (by simp)]
    rfl

/-- C10 counterexample: the prefix `"/queue/item"` does not contain
`"/queue/item/"`, yet formatting queue id 42 after it and parsing back
fails — `bytes.Index` finds the straddling occurrence created at the
junction and the id scan then reads `"queue/item/42"`. -/
theorem claim_C10_roundtrip_counterexample :
    containsSub queueItemPat "/queue/item".toList = false ∧
    parseQueueIDFromLocation ("/queue/item" ++ "/queue/item/" ++ decimalRepr 42 ++ "/") =
      .error ("failed to parse queue ID from " ++ "queue/item/42") := by
  constructor
  · decide
  · rfl

/-- C10 amended: the round-trip holds for every non-negative id and every
prefix that creates no occurrence of `"/queue/item/"` before the appended
one (no occurrence of the pattern inside `prefix ++ "/queue/item"`; the
original claim's condition — the pattern not occurring in the prefix
alone — does not rule out an occurrence straddling the junction). -/
theorem claim_C10_roundtrip_amended (pfx : String) (id : Nat)
    (h : containsSub queueItemPat (pfx.toList ++ "/queue/item".toList) = false) :
    parseQueueIDFromLocation (pfx ++ "/queue/item/" ++ decimalRepr id ++ "/") =
      .ok (id : Int) ∧
    parseQueueIDFromLocation (pfx ++ "/queue/item/" ++ decimalRepr id) =
      .ok (id : Int) := by
  have hdig : ∀ c ∈ natToDigits (id + 1) id, c.isDigit = true :=
    fun c hc => natToDigits_all_digits (id + 1) id c hc
  have hne := natToDigits_ne_nil id id
  have hval := digitsToNat_natToDigits (id + 1) id (n_lt_ten_pow id)
  have h' : containsSub ("/queue/item".toList ++ ['/'])
      (pfx.toList ++ "/queue/item".toList) = false := h
  constructor
  · have hlist : (pfx ++ "/queue/item/" ++ decimalRepr id ++ "/").toList =
        pfx.toList ++ (("/queue/item".toList ++ ['/']) ++
          (natToDigits (id + 1) id ++ ['/'])) := by
      simp only [string_toList_append, decimalRepr_toList, List.append_assoc]
      rfl
    rw [parseQueueIDFromLocation, hlist]
    rw [show queueItemPat = "/queue/item".toList ++ ['/'] from rfl]
    rw [indexOfSub_concat "/queue/item".toList '/' pfx.toList
      (natToDigits (id + 1) id ++ ['/']) h']
    simp only []
    have hdrop : (pfx.toList ++ (("/queue/item".toList ++ ['/']) ++
        (natToDigits (id + 1) id ++ ['/']))).drop (pfx.toList.length + 12) =
        natToDigits (id + 1) id ++ ['/'] := by
      rw [← List.append_assoc]
      rw [show pfx.toList.length + 12 =
        (pfx.toList ++ ("/queue/item".toList ++ ['/'])).length from by simp]
      rw [List.drop_left]
    rw [hdrop, trimSuffixSlash_append_slash]
    rw [parseDecimal_all_digits _ hne hdig, hval]
  · have hlist : (pfx ++ "/queue/item/" ++ decimalRepr id).toList =
        pfx.toList ++ (("/queue/item".toList ++ ['/']) ++ natToDigits (id + 1) id) := by
      simp only [string_toList_append, decimalRepr_toList, List.append_assoc]
      rfl
    rw [parseQueueIDFromLocation, hlist]
    rw [show queueItemPat = "/queue/item".toList ++ ['/'] from rfl]
    rw [indexOfSub_concat "/queue/item".toList '/' pfx.toList
      (natToDigits (id + 1) id) h']
    simp only []
    have hdrop : (pfx.toList ++ (("/queue/item".toList ++ ['/']) ++
        natToDigits (id + 1) id)).drop (pfx.toList.length + 12) =
        natToDigits (id + 1) id := by
      rw [← List.append_assoc]
      rw [show pfx.toList.length + 12 =
        (pfx.toList ++ ("/queue/item".toList ++ ['/'])).length from by simp]
      rw [List.drop_left]
    rw [hdrop, trimSuffixSlash_all_digits _ hdig]
    rw [parseDecimal_all_digits _ hne hdig, hval]

/-- Witness for the amended C10: a realistic absolute location URL with
queue id 42 parses back to 42 with and without the trailing slash. -/
theorem claim_C10_roundtrip_amended_witness :
    parseQueueIDFromLocation
      ("http://jenkins.example.com" ++ "/queue/item/" ++ decimalRepr 42 ++ "/") =
      .ok (42 : Int) ∧
    parseQueueIDFromLocation
      ("http://jenkins.example.com" ++ "/queue/item/" ++ decimalRepr 42) =
      .ok (42 : Int) :=
  claim_C10_roundtrip_amended "http://jenkins.example.com" 42 (by decide)

/-- C9: a successfully fetched job configuration document is classified into
exactly three cases by marker scanning — inline pipeline (the text inside
the first `<script>...</script>` region is returned, or the
"empty or missing" error when no such region exists), SCM-backed pipeline
(not-inline error), and everything else (not-a-pipeline error).  The last
conjunct pins down the extraction: on a document of the shape
`pre <script> body </script> post` with no earlier `<script>` and no
`</script>` inside `body`, exactly `body` is returned. -/
theorem claim_C9_pipeline_script_classification (c : Client) (job : String)
    (s : NetState) (r : Response)
    (hr : (c.doRequest .get ("/job/" ++ job ++ "/config.xml") s).1 = .ok r)
    (h200 : r.status = 200) :
    (∀ scr, containsSub cpsFlowMarker.toList r.body.toList = true →
      extractScript r.body.toList = some scr →
      (c.GetPipelineScript job s).1 = .ok (String.mk scr)) ∧
    (containsSub cpsFlowMarker.toList r.body.toList = true →
      extractScript r.body.toList = none →
      (c.GetPipelineScript job s).1 =
        .err "pipeline job found, but <script> block is empty or missing") ∧
    (containsSub cpsFlowMarker.toList r.body.toList = false →
      containsSub cpsScmFlowMarker.toList r.body.toList = true →
      (c.GetPipelineScript job s).1 =
        .err "pipeline is defined in SCM (Git). Jenkins does not store the Jenkinsfile inline") ∧
    (containsSub cpsFlowMarker.toList r.body.toList = false →
      containsSub cpsScmFlowMarker.toList r.body.toList = false →
      (c.GetPipelineScript job s).1 =
        .err ("job '" ++ job ++ "' is not an inline pipeline job (no <script> block available)")) ∧
    (∀ pre body post : List Char,
      containsSub scOpen (pre ++ "<script".toList) = false →
      containsSub scClose (body ++ "</script".toList) = false →
      extractScript (pre ++ (scOpen ++ (body ++ (scClose ++ post)))) = some body) := by
  have hpair : c.doRequest .get ("/job/" ++ job ++ "/config.xml") s =
      (.ok r, (c.doRequest .get ("/job/" ++ job ++ "/config.xml") s).2) := by
    rw [← hr]
  refine ⟨?_, ?_, ?_, ?_, fun pre body post h1 h2 => extractScript_concat pre body post h1 h2⟩
  · intro scr hin hext
    rw [Client.GetPipelineScript, hpair]
    simp only []
    rw [if_neg (by simp [h200]), if_neg (by simp [h200]), if_pos hin, hext]
  · intro hin hext
    rw [Client.GetPipelineScript, hpair]
    simp only []
    rw [if_neg (by simp [h200]), if_neg (by simp [h200]), if_pos hin, hext]
  · intro hnin hscm
    rw [Client.GetPipelineScript, hpair]
    simp only []
    rw [if_neg (by simp [h200]), if_neg (by simp [h200]),
      if_neg (fun hcon => by rw [hcon] at hnin; simp at hnin), if_pos hscm]
  · intro hnin hnscm
    rw [Client.GetPipelineScript, hpair]
    simp only []
    rw [if_neg (by simp [h200]), if_neg (by simp [h200]),
      if_neg (fun hcon => by rw [hcon] at hnin; simp at hnin),
      if_neg (fun hcon => by rw [hcon] at hnscm; simp at hnscm)]

set_option maxRecDepth 100000 in
/-- Witness for C9: a concrete inline-pipeline `config.xml` yields its
script text; a concrete SCM-backed one yields the not-inline error. -/
theorem claim_C9_pipeline_script_classification_witness :
    (Client.GetPipelineScript ⟨"http://j", "u", "p", "tok", 3, 1⟩ "p"
      ⟨[.resp ⟨200, "",
        "<flow-definition><definition class=\"org.jenkinsci.plugins.workflow.cps.CpsFlowDefinition\"><script>echo hi</script></definition></flow-definition>",
        none⟩], []⟩).1 = .ok "echo hi" ∧
    (Client.GetPipelineScript ⟨"http://j", "u", "p", "tok", 3, 1⟩ "p"
      ⟨[.resp ⟨200, "",
        "<flow-definition><definition class=\"org.jenkinsci.plugins.workflow.cps.CpsScmFlowDefinition\"/></flow-definition>",
        none⟩], []⟩).1 =
      .err "pipeline is defined in SCM (Git). Jenkins does not store the Jenkinsfile inline" := by
  constructor
  · exact (claim_C9_pipeline_script_classification ⟨"http://j", "u", "p", "tok", 3, 1⟩ "p"
      ⟨[.resp ⟨200, "",
        "<flow-definition><definition class=\"org.jenkinsci.plugins.workflow.cps.CpsFlowDefinition\"><script>echo hi</script></definition></flow-definition>",
        none⟩], []⟩
      ⟨200, "",
        "<flow-definition><definition class=\"org.jenkinsci.plugins.workflow.cps.CpsFlowDefinition\"><script>echo hi</script></definition></flow-definition>",
        none⟩ rfl rfl).1 "echo hi".toList (by decide) rfl
  · exact (claim_C9_pipeline_script_classification ⟨"http://j", "u", "p", "tok", 3, 1⟩ "p"
      ⟨[.resp ⟨200, "",
        "<flow-definition><definition class=\"org.jenkinsci.plugins.workflow.cps.CpsScmFlowDefinition\"/></flow-definition>",
        none⟩], []⟩
      ⟨200, "",
        "<flow-definition><definition class=\"org.jenkinsci.plugins.workflow.cps.CpsScmFlowDefinition\"/></flow-definition>",
        none⟩ rfl rfl).2.2.1 (by decide) (by decide)
